import Mathlib

/-!
# Users recovery of the OpenSearch DBaaS adapter

A shallow embedding of `basic/users_recovery.go` (package `basic`):
the handlers `RecoverUsersHandler` and `GetRecoveryStateHandler`, the
background job `recovery` and the helper `getUserContent`.

Effects are made explicit.  The provider carries, besides the field
`recoveryState` of the Go struct, a chronological `trace` of the calls the
job makes to `patchUsers` and `time.Sleep`, and the list `jobs` of the
goroutines launched with `go bp.recovery(...)`.  Logging is not modelled.

Four names used by the file are declared elsewhere in the package and are
taken as parameters (`Deps`): the constants `AdminRoleType` and
`resourcePrefixAttributeName`, the method `GetBackendRoles`, and the
method `patchUsers`, whose outcome (nil or an error) may depend on
everything that happened before the call.  `patchUsers` is taken not to
write `recoveryState`.

Positions and lengths are natural numbers: the Go `int` sums
`position+batchSize` stay far below `2^63` for any slice that fits in memory.

Two further parts follow the recovery: the registration and protocol
version functions of package `physical` (namespace `Physical`) and the
request builders of package `api` (namespace `Api`).  All definitions come
first, the theorems after them.
-/

namespace Recovery

/-! ## Constants -/

/-- Go: `RecoveryIdleState = "idle"`. -/
def RecoveryIdleState : String := "idle"

/-- Go: `RecoveryRunningState = "running"`. -/
def RecoveryRunningState : String := "running"

/-- Go: `RecoveryFailedState = "failed"`. -/
def RecoveryFailedState : String := "failed"

/-- Go: `RecoveryDoneState = "done"`. -/
def RecoveryDoneState : String := "done"

/-- Go: `batchSize = 100`. -/
def batchSize : Nat := 100

/-- Go: `http.StatusOK`. -/
def StatusOK : Nat := 200

/-- Go: `http.StatusInternalServerError`. -/
def StatusInternalServerError : Nat := 500

/-! ## Data model -/

/-- Go: `common.ConnectionProperties`, the fields the recovery reads. -/
structure ConnectionProperties where
  Username : String
  Password : String
  Role : String
  ResourcePrefix : String
  DbName : String
  deriving DecidableEq, Repr

/-- Go: `Content`.  The map `Attributes` is kept as its list of entries. -/
structure Content where
  Attributes : List (String × String)
  BackendRoles : List String
  Password : String
  deriving DecidableEq, Repr

/-- Go: `Change`, one JSON-patch instruction. -/
structure Change where
  Operation : String
  Path : String
  Value : Content
  deriving DecidableEq, Repr

/-- Go: `UsersToRecover`; the untyped `Settings` map is never read by the
handler and is left out. -/
structure UsersToRecover where
  ConnectionProperties : List ConnectionProperties
  deriving DecidableEq, Repr

/-- An observable effect of the recovery job. -/
inductive Event where
  | patch (batch : List Change)
  | sleep (seconds : Nat)
  deriving DecidableEq, Repr

/-- The names `users_recovery.go` uses and does not declare.  `patchUsers`
receives the trace so far and the batch, and answers `none` for a nil error
and `some e` for an error with text `e`. -/
structure Deps where
  AdminRoleType : String
  resourcePrefixAttributeName : String
  GetBackendRoles : String → List String
  patchUsers : List Event → List Change → Option String

/-- Go: `BaseProvider`, with the effects recorded next to `recoveryState`. -/
structure BaseProvider where
  recoveryState : String
  trace : List Event
  jobs : List (List ConnectionProperties)
  deriving DecidableEq, Repr

/-- What a handler wrote to its `http.ResponseWriter`. -/
structure Response where
  status : Nat
  body : String
  deriving DecidableEq, Repr

/-! ## `getUserContent` and the list of changes -/

/-- Go: `(bp *BaseProvider) getUserContent`. -/
def getUserContent (d : Deps) (properties : ConnectionProperties) : Content :=
  let roleType := if properties.Role ≠ "" then properties.Role else d.AdminRoleType
  let pfx := if properties.ResourcePrefix = "" then properties.DbName
    else properties.ResourcePrefix
  { Attributes := [(d.resourcePrefixAttributeName, pfx)]
    BackendRoles := d.GetBackendRoles roleType
    Password := properties.Password }

/-- The first loop of `recovery`: one `append` per connection property. -/
def buildChanges (d : Deps) (connectionProperties : List ConnectionProperties) :
    List Change :=
  connectionProperties.foldl
    (fun changes properties =>
      changes ++ [{ Operation := "add"
                    Path := "/" ++ properties.Username
                    Value := getUserContent d properties }])
    []

/-! ## The batch loop -/

/-- Go slice expression `xs[lo:hi]`. -/
def slice {α : Type} (xs : List α) (lo hi : Nat) : List α :=
  (xs.drop lo).take (hi - lo)

/-- The batch chosen at the head of the outer loop. -/
def currentBatch (changes : List Change) (position : Nat) : List Change :=
  if position + batchSize < changes.length then
    slice changes position (position + batchSize)
  else
    changes.drop position

/-- Go: `bp.patchUsers(batch, ctx)`: the call is recorded and its outcome is
the one the dependency gives for the trace before the call. -/
def callPatchUsers (d : Deps) (batch : List Change) (bp : BaseProvider) :
    Option String × BaseProvider :=
  (d.patchUsers bp.trace batch, { bp with trace := bp.trace ++ [Event.patch batch] })

/-- Go: `time.Sleep(n * time.Second)`. -/
def timeSleep (seconds : Nat) (bp : BaseProvider) : BaseProvider :=
  { bp with trace := bp.trace ++ [Event.sleep seconds] }

/-- The inner loop `for i := 0; i < 3; i++`, entered with counter `i` and the
current value of `err`; it returns the final `err` and the provider. -/
def attemptLoop (d : Deps) (batch : List Change) (i : Nat) (err : Option String)
    (bp : BaseProvider) : Option String × BaseProvider :=
  if i < 3 then
    match callPatchUsers d batch bp with
    | (none, bp1) => (none, bp1)
    | (some e, bp1) => attemptLoop d batch (i + 1) (some e) (timeSleep 10 bp1)
  else
    (err, bp)
termination_by 3 - i

/-- The outer loop `for position < len(changes)` with the statements that
follow it. -/
def recoveryLoop (d : Deps) (changes : List Change) (position : Nat)
    (bp : BaseProvider) : BaseProvider :=
  if position < changes.length then
    match attemptLoop d (currentBatch changes position) 0 none bp with
    | (some _, bp1) => { bp1 with recoveryState := RecoveryFailedState }
    | (none, bp1) => recoveryLoop d changes (position + batchSize) bp1
  else
    { bp with recoveryState := RecoveryDoneState }
termination_by changes.length - position
decreasing_by
  simp only [batchSize]
  omega

/-- Go: `(bp *BaseProvider) recovery`. -/
def recovery (d : Deps) (connectionProperties : List ConnectionProperties)
    (bp : BaseProvider) : BaseProvider :=
  recoveryLoop d (buildChanges d connectionProperties) 0 bp

/-! ## Handlers -/

/-- Go: `(bp *BaseProvider) RecoverUsersHandler`.  The argument `decoded` is
the result of `decoder.Decode(&usersToRecover)`: the error text, or the
decoded request.  The statement `go bp.recovery(...)` only records the new
goroutine in `jobs`. -/
def RecoverUsersHandler (decoded : Except String UsersToRecover) (bp : BaseProvider) :
    BaseProvider × Response :=
  match decoded with
  | Except.error err => (bp, { status := StatusInternalServerError, body := err })
  | Except.ok usersToRecover =>
    let bp1 :=
      if bp.recoveryState ≠ RecoveryRunningState then
        { bp with recoveryState := RecoveryRunningState
                  jobs := bp.jobs ++ [usersToRecover.ConnectionProperties] }
      else bp
    (bp1, { status := StatusOK, body := "" })

/-- Go: `(bp *BaseProvider) GetRecoveryStateHandler`. -/
def GetRecoveryStateHandler (bp : BaseProvider) : BaseProvider × Response :=
  (bp, { status := StatusOK, body := bp.recoveryState })

/-! ## Vocabulary of the statements -/

/-- The batches passed to `patchUsers`, in call order. -/
def patchCalls : List Event → List (List Change)
  | [] => []
  | Event.patch b :: es => b :: patchCalls es
  | Event.sleep _ :: es => patchCalls es

/-- The pauses taken, in order, each with its length in seconds. -/
def pauses : List Event → List Nat
  | [] => []
  | Event.patch _ :: es => pauses es
  | Event.sleep n :: es => n :: pauses es

/-- The events of `j` failed attempts on `batch`: each call is followed by
the pause of ten seconds. -/
def failedAttempts (batch : List Change) : Nat → List Event
  | 0 => []
  | j + 1 => failedAttempts batch j ++ [Event.patch batch, Event.sleep 10]

/-- Outcome of attempt `j + 1` on `batch` when the batch is started with
provider `bp` and the `j` attempts before it failed. -/
def attemptOutcome (d : Deps) (batch : List Change) (bp : BaseProvider) (j : Nat) :
    Option String :=
  d.patchUsers (bp.trace ++ failedAttempts batch j) batch

/-- The events a run added to the trace of the provider it started with. -/
def newEvents (before after : BaseProvider) : List Event :=
  after.trace.drop before.trace.length

/-- The providers with which the outer loop of a run evaluates its condition:
the initial one at position 0, and after each batch that was applied. -/
inductive LoopHead (d : Deps) (changes : List Change) (bp0 : BaseProvider) :
    Nat → BaseProvider → Prop
  | start : LoopHead d changes bp0 0 bp0
  | next {position : Nat} {bp : BaseProvider} :
      LoopHead d changes bp0 position bp →
      position < changes.length →
      (attemptLoop d (currentBatch changes position) 0 none bp).1 = none →
      LoopHead d changes bp0 (position + batchSize)
        (attemptLoop d (currentBatch changes position) 0 none bp).2

/-- No batch of the run fails its three attempts: at every loop head with a
batch left, one of the three calls succeeds. -/
def EveryBatchApplied (d : Deps) (changes : List Change) (bp0 : BaseProvider) : Prop :=
  ∀ (position : Nat) (bp : BaseProvider), LoopHead d changes bp0 position bp →
    position < changes.length →
    ∃ j, j < 3 ∧ attemptOutcome d (currentBatch changes position) bp j = none

/-! ## Sample inputs -/

/-- Dependencies with the given behaviour of `patchUsers`. -/
def sampleDeps (patchUsers : List Event → List Change → Option String) : Deps :=
  { AdminRoleType := "admin"
    resourcePrefixAttributeName := "resource_prefix"
    GetBackendRoles := fun role => [role]
    patchUsers := patchUsers }

/-- A client on which every call succeeds. -/
def neverFails : List Event → List Change → Option String :=
  fun _ _ => none

/-- A client on which every call fails. -/
def alwaysFails : List Event → List Change → Option String :=
  fun _ _ => some "connection refused"

/-- A client whose first two calls fail and whose later calls succeed. -/
def failsTwice : List Event → List Change → Option String :=
  fun t _ => if (patchCalls t).length < 2 then some "connection refused" else none

/-- A client whose first call succeeds and whose later calls fail. -/
def failsAfterFirst : List Event → List Change → Option String :=
  fun t _ => if (patchCalls t).length < 1 then none else some "connection refused"

/-- A connection property with empty role and resource prefix. -/
def sampleUser : ConnectionProperties :=
  { Username := "alice", Password := "secret", Role := "", ResourcePrefix := "",
    DbName := "orders" }

/-- A request with 201 connection properties: three batches. -/
def sampleUsers : List ConnectionProperties :=
  List.replicate 201 sampleUser

/-- The provider right after a trigger was accepted. -/
def runningProvider : BaseProvider :=
  { recoveryState := RecoveryRunningState, trace := [], jobs := [[sampleUser]] }

/-- The provider at adapter startup. -/
def idleProvider : BaseProvider :=
  { recoveryState := RecoveryIdleState, trace := [], jobs := [] }

/-- The only batch of a run over `sampleUser` alone. -/
def sampleBatch : List Change :=
  [{ Operation := "add", Path := "/alice",
     Value := { Attributes := [("resource_prefix", "orders")], BackendRoles := ["admin"],
                Password := "secret" } }]

/-! ## Interleaved executions -/

/-- A goroutine started by `go bp.recovery(...)` that has not yet made its
last write to `recoveryState`: the list of changes it built and the value of
its variable `position`.  After that write the Go code only logs and returns. -/
structure Job where
  changes : List Change
  position : Nat
  deriving DecidableEq, Repr

/-- The provider together with the jobs in flight. -/
structure System where
  bp : BaseProvider
  inFlight : List Job
  deriving DecidableEq, Repr

/-- One iteration of the outer loop of `recovery`, or its exit: the new
provider, and the job when it goes on. -/
def jobStep (d : Deps) (job : Job) (bp : BaseProvider) : BaseProvider × Option Job :=
  if job.position < job.changes.length then
    match attemptLoop d (currentBatch job.changes job.position) 0 none bp with
    | (some _, bp1) => ({ bp1 with recoveryState := RecoveryFailedState }, none)
    | (none, bp1) => (bp1, some { job with position := job.position + batchSize })
  else
    ({ bp with recoveryState := RecoveryDoneState }, none)

/-- The jobs for the goroutines a handler call added to `jobs`. -/
def launched (d : Deps) (before after : BaseProvider) : List Job :=
  (after.jobs.drop before.jobs.length).map
    (fun connectionProperties =>
      { changes := buildChanges d connectionProperties, position := 0 })

/-- What can happen next: a recovery request arrives (decoded or not), the
state is polled, the job at index `k` runs one iteration of its loop, or the
job at index `k` runs to its end. -/
inductive Action where
  | request (decoded : Except String UsersToRecover)
  | poll
  | advance (k : Nat)
  | complete (k : Nat)

/-- One step of the system.  The handler runs as one step. -/
def step (d : Deps) (s : System) : Action → System
  | Action.request decoded =>
    { bp := (RecoverUsersHandler decoded s.bp).1
      inFlight := s.inFlight ++ launched d s.bp (RecoverUsersHandler decoded s.bp).1 }
  | Action.poll => { s with bp := (GetRecoveryStateHandler s.bp).1 }
  | Action.advance k =>
    match s.inFlight[k]? with
    | none => s
    | some job =>
      match jobStep d job s.bp with
      | (bp1, some job1) => { bp := bp1, inFlight := s.inFlight.set k job1 }
      | (bp1, none) => { bp := bp1, inFlight := s.inFlight.eraseIdx k }
  | Action.complete k =>
    match s.inFlight[k]? with
    | none => s
    | some job =>
      { bp := recoveryLoop d job.changes job.position s.bp
        inFlight := s.inFlight.eraseIdx k }

/-- The system after a sequence of steps. -/
def run (d : Deps) (s : System) (actions : List Action) : System :=
  actions.foldl (step d) s

/-- The recovery state is one of the four constants. -/
def KnownState (bp : BaseProvider) : Prop :=
  bp.recoveryState = RecoveryIdleState ∨ bp.recoveryState = RecoveryRunningState ∨
  bp.recoveryState = RecoveryFailedState ∨ bp.recoveryState = RecoveryDoneState

/-- At most one job is in flight, and one is in flight exactly when the
recovery state is running. -/
def SingleJob (s : System) : Prop :=
  s.inFlight.length ≤ 1 ∧ (s.inFlight ≠ [] ↔ s.bp.recoveryState = RecoveryRunningState)

/-- A sample execution: a trigger, a duplicate trigger, a bad request, one
iteration of the job, a poll, the rest of the job, and a new trigger. -/
def sampleActions : List Action :=
  [Action.request (Except.ok { ConnectionProperties := sampleUsers }),
   Action.request (Except.ok { ConnectionProperties := [sampleUser] }),
   Action.request (Except.error "unexpected EOF"),
   Action.advance 0,
   Action.poll,
   Action.complete 0,
   Action.request (Except.ok { ConnectionProperties := [sampleUser] })]

end Recovery

/-! # Registration and protocol version (package `physical`)

Of this package only `physical_test.go` is among the sources: it calls
`getApiVersion` and `doRegistrationRequest` and fixes their outcomes on five
responses.  Both functions are modelled from the specification. -/

namespace Physical

/-- Go: `common.ApiV1` and `common.ApiV2`, the two protocol versions. -/
inductive ApiVersion where
  | ApiV1
  | ApiV2
  deriving DecidableEq, Repr

/-- The version information of the aggregator: `major`, `minor` and
`supportedMajors`. -/
structure ApiVersionInfo where
  major : Int
  minor : Int
  supportedMajors : List Int
  deriving DecidableEq, Repr

/-- A response of the version endpoint: its status code and its body, `none`
when the body does not parse into an `ApiVersionInfo`. -/
structure VersionResponse where
  status : Nat
  body : Option ApiVersionInfo
  deriving DecidableEq, Repr

/-- Modelled from the spec: a success status is a 2xx status (the spec names
2xx for the registration endpoint and says only "success" for the version
endpoint). -/
def isSuccess (status : Nat) : Bool :=
  decide (200 ≤ status) && decide (status < 300)

/-- Modelled from the spec: `getApiVersion` is not among the sources.  A
non-success status resolves to V1; a success whose body does not parse
resolves to V2; a parsed body resolves to V2 if and only if `major ≥ 3` and 3
is among `supportedMajors`, and to V1 otherwise. -/
def getApiVersion (response : VersionResponse) : ApiVersion :=
  if isSuccess response.status then
    match response.body with
    | none => ApiVersion.ApiV2
    | some info =>
      if 3 ≤ info.major ∧ (3 : Int) ∈ info.supportedMajors then ApiVersion.ApiV2
      else ApiVersion.ApiV1
  else
    ApiVersion.ApiV1

/-- Go: `common.ComponentHealth`. -/
structure ComponentHealth where
  Status : String
  deriving DecidableEq, Repr

/-- Modelled from the spec: `doRegistrationRequest` is not among the sources.
The argument `outcome` is what the registration request gave, a transport
error or the status code of the answer; the health record is overwritten with
"OK" for a 2xx status and with "PROBLEM" otherwise. -/
def doRegistrationRequest (outcome : Except String Nat) (_health : ComponentHealth) :
    ComponentHealth :=
  match outcome with
  | Except.ok status =>
    if isSuccess status then { Status := "OK" } else { Status := "PROBLEM" }
  | Except.error _ => { Status := "PROBLEM" }

end Physical

/-! # Request builders (package `api`)

Each `Do` builds an HTTP request and hands it to the transport.  A request is
kept as the values the builder sets: the method and the URL string given to
`http.NewRequest`, the query parameters, the header, the body and the
context.  Parsing of the URL string is a parameter, `validURL`. -/

namespace Api

/-- Go: `*http.Request`, as far as the builders set it. -/
structure HttpRequest where
  Method : String
  URL : String
  Query : List (String × String)
  Header : List (String × List String)
  Body : Option String
  ctx : Option String
  deriving DecidableEq, Repr

/-- Go: `*http.Response`, as far as the builders read it. -/
structure HttpResponse where
  StatusCode : Nat
  Body : String
  Header : List (String × List String)
  deriving DecidableEq, Repr

/-- Go: `opensearchapi.Response`. -/
structure Response where
  StatusCode : Nat
  Body : String
  Header : List (String × List String)
  deriving DecidableEq, Repr

/-- Go: `opensearchapi.Transport`, by its method `Perform`. -/
def Transport : Type := HttpRequest → Except String HttpResponse

/-- Go: `http.NewRequest(method, url, body)`; it fails when the URL string does
not parse. -/
def NewRequest (validURL : String → Bool) (method url : String) (body : Option String) :
    Except String HttpRequest :=
  if validURL url then
    Except.ok { Method := method, URL := url, Query := [], Header := [], Body := body,
                ctx := none }
  else
    Except.error ("parse " ++ url)

/-- The map `params` every `Do` fills, as its list of entries. -/
def queryParams (WaitForCompletion : Option Bool) (Pretty Human ErrorTrace : Bool)
    (FilterPath : List String) : List (String × String) :=
  (match WaitForCompletion with
    | some b => [("wait_for_completion", if b then "true" else "false")]
    | none => []) ++
  (if Pretty then [("pretty", "true")] else []) ++
  (if Human then [("human", "true")] else []) ++
  (if ErrorTrace then [("error_trace", "true")] else []) ++
  (if FilterPath.length > 0 then [("filter_path", ",".intercalate FilterPath)] else [])

/-- The statements every `Do` runs on the new request: the query, the header
and the context. -/
def finish (req : HttpRequest) (params : List (String × String))
    (header : List (String × List String)) (ctx : Option String) : HttpRequest :=
  let req1 := if params.length > 0 then { req with Query := params } else req
  let req2 :=
    if header.length > 0 then
      if req1.Header.length = 0 then { req1 with Header := header }
      else { req1 with Header := req1.Header ++ header }
    else req1
  match ctx with
  | some c => { req2 with ctx := some c }
  | none => req2

/-- The end of every `Do`: `transport.Perform(req)` and the copy of the
answer. -/
def perform (transport : Transport) (req : HttpRequest) : Except String Response :=
  match transport req with
  | Except.error e => Except.error e
  | Except.ok res =>
    Except.ok { StatusCode := res.StatusCode, Body := res.Body, Header := res.Header }

/-- A `Do` as a whole: it returns the error of `http.NewRequest` when no
request was built, and otherwise hands the request to the transport. -/
def send (built : Except String HttpRequest) (transport : Transport) :
    Except String Response :=
  match built with
  | Except.error e => Except.error e
  | Except.ok req => perform transport req

/-- The loop `for _, f := range o { f(&r) }`. -/
def applyOptions {α : Type} (r : α) (o : List (α → α)) : α :=
  o.foldl (fun acc f => f acc) r

/-- Go: `GetRolesMappingRequest`. -/
structure GetRolesMappingRequest where
  WaitForCompletion : Option Bool := none
  Pretty : Bool := false
  Human : Bool := false
  ErrorTrace : Bool := false
  FilterPath : List String := []
  Header : List (String × List String) := []
  ctx : Option String := none
  deriving DecidableEq, Repr

/-- Go: `GetRoleRequest`. -/
structure GetRoleRequest where
  Role : String := ""
  WaitForCompletion : Option Bool := none
  Pretty : Bool := false
  Human : Bool := false
  ErrorTrace : Bool := false
  FilterPath : List String := []
  Header : List (String × List String) := []
  ctx : Option String := none
  deriving DecidableEq, Repr

/-- Go: `PatchUserRequest`. -/
structure PatchUserRequest where
  Username : String := ""
  Body : Option String := none
  WaitForCompletion : Option Bool := none
  Pretty : Bool := false
  Human : Bool := false
  ErrorTrace : Bool := false
  FilterPath : List String := []
  Header : List (String × List String) := []
  ctx : Option String := none
  deriving DecidableEq, Repr

/-- Go: `CreateUserRequest`. -/
structure CreateUserRequest where
  Username : String := ""
  Body : Option String := none
  WaitForCompletion : Option Bool := none
  Pretty : Bool := false
  Human : Bool := false
  ErrorTrace : Bool := false
  FilterPath : List String := []
  Header : List (String × List String) := []
  ctx : Option String := none
  deriving DecidableEq, Repr

/-- The request `GetRolesMappingRequest.Do` hands to the transport. -/
def GetRolesMappingRequest.request (validURL : String → Bool) (r : GetRolesMappingRequest)
    (ctx : Option String) : Except String HttpRequest :=
  match NewRequest validURL "GET" "/_plugins/_security/api/rolesmapping" none with
  | Except.error e => Except.error e
  | Except.ok req =>
    Except.ok (finish req
      (queryParams r.WaitForCompletion r.Pretty r.Human r.ErrorTrace r.FilterPath)
      r.Header ctx)

/-- Go: `GetRolesMappingRequest.Do`. -/
def GetRolesMappingRequest.Do (validURL : String → Bool) (r : GetRolesMappingRequest)
    (ctx : Option String) (transport : Transport) : Except String Response :=
  send (r.request validURL ctx) transport

/-- Go: `newGetRolesMappingFunc`. -/
def newGetRolesMappingFunc (validURL : String → Bool) (t : Transport) :
    String → List (GetRolesMappingRequest → GetRolesMappingRequest) →
      Except String Response :=
  fun _role o =>
    (applyOptions ({} : GetRolesMappingRequest) o).Do validURL
      (applyOptions ({} : GetRolesMappingRequest) o).ctx t

/-- The request `GetRoleRequest.Do` hands to the transport. -/
def GetRoleRequest.request (validURL : String → Bool) (r : GetRoleRequest)
    (ctx : Option String) : Except String HttpRequest :=
  match NewRequest validURL "GET" ("/_plugins/_security/api/roles" ++ "/" ++ r.Role) none with
  | Except.error e => Except.error e
  | Except.ok req =>
    Except.ok (finish req
      (queryParams r.WaitForCompletion r.Pretty r.Human r.ErrorTrace r.FilterPath)
      r.Header ctx)

/-- Go: `GetRoleRequest.Do`. -/
def GetRoleRequest.Do (validURL : String → Bool) (r : GetRoleRequest)
    (ctx : Option String) (transport : Transport) : Except String Response :=
  send (r.request validURL ctx) transport

/-- Go: `newGetRoleFunc`. -/
def newGetRoleFunc (validURL : String → Bool) (t : Transport) :
    String → List (GetRoleRequest → GetRoleRequest) → Except String Response :=
  fun role o =>
    (applyOptions ({ Role := role } : GetRoleRequest) o).Do validURL
      (applyOptions ({ Role := role } : GetRoleRequest) o).ctx t

/-- Go: `GetRole.WithRole`. -/
def GetRole.WithRole (v : String) : GetRoleRequest → GetRoleRequest :=
  fun r => { r with Role := v }

/-- Go: `GetRole.WithPretty`. -/
def GetRole.WithPretty : GetRoleRequest → GetRoleRequest :=
  fun r => { r with Pretty := true }

/-- The request `PatchUserRequest.Do` hands to the transport. -/
def PatchUserRequest.request (validURL : String → Bool) (r : PatchUserRequest)
    (ctx : Option String) : Except String HttpRequest :=
  match NewRequest validURL "PATCH"
      ("/_plugins/_security/api/internalusers" ++ "/" ++ r.Username) r.Body with
  | Except.error e => Except.error e
  | Except.ok req =>
    Except.ok (finish req
      (queryParams r.WaitForCompletion r.Pretty r.Human r.ErrorTrace r.FilterPath)
      r.Header ctx)

/-- Go: `PatchUserRequest.Do`. -/
def PatchUserRequest.Do (validURL : String → Bool) (r : PatchUserRequest)
    (ctx : Option String) (transport : Transport) : Except String Response :=
  send (r.request validURL ctx) transport

/-- Go: `newPatchUserFunc`. -/
def newPatchUserFunc (validURL : String → Bool) (t : Transport) :
    String → List (PatchUserRequest → PatchUserRequest) → Except String Response :=
  fun username o =>
    (applyOptions ({ Username := username } : PatchUserRequest) o).Do validURL
      (applyOptions ({ Username := username } : PatchUserRequest) o).ctx t

/-- Go: `PatchUser.WithUsername`. -/
def PatchUser.WithUsername (v : String) : PatchUserRequest → PatchUserRequest :=
  fun r => { r with Username := v }

/-- The request `CreateUserRequest.Do` hands to the transport. -/
def CreateUserRequest.request (validURL : String → Bool) (r : CreateUserRequest)
    (ctx : Option String) : Except String HttpRequest :=
  match NewRequest validURL "PUT"
      ("/_plugins/_security/api/internalusers" ++ "/" ++ r.Username) r.Body with
  | Except.error e => Except.error e
  | Except.ok req =>
    Except.ok (finish req
      (queryParams r.WaitForCompletion r.Pretty r.Human r.ErrorTrace r.FilterPath)
      r.Header ctx)

/-- Go: `CreateUserRequest.Do`. -/
def CreateUserRequest.Do (validURL : String → Bool) (r : CreateUserRequest)
    (ctx : Option String) (transport : Transport) : Except String Response :=
  send (r.request validURL ctx) transport

/-- Go: `newCreateUserFunc`. -/
def newCreateUserFunc (validURL : String → Bool) (t : Transport) :
    String → List (CreateUserRequest → CreateUserRequest) → Except String Response :=
  fun username o =>
    (applyOptions ({ Username := username } : CreateUserRequest) o).Do validURL
      (applyOptions ({ Username := username } : CreateUserRequest) o).ctx t

/-- Go: `CreateUser.WithUsername`. -/
def CreateUser.WithUsername (v : String) : CreateUserRequest → CreateUserRequest :=
  fun r => { r with Username := v }

/-- A URL parser that accepts every string. -/
def anyURL : String → Bool :=
  fun _ => true

/-- A transport that answers 200 with the method and the URL of the request
as body. -/
def echo : Transport :=
  fun req => Except.ok { StatusCode := 200, Body := req.Method ++ " " ++ req.URL,
                         Header := [] }

end Api

namespace Recovery

/-! ## Content derivation and the list of changes -/

theorem buildChanges_eq_map (d : Deps) (cps : List ConnectionProperties) :
    buildChanges d cps =
      cps.map (fun p => Change.mk "add" ("/" ++ p.Username) (getUserContent d p)) := by
  unfold buildChanges
  have key : ∀ (acc : List Change),
      cps.foldl
        (fun changes properties =>
          changes ++ [{ Operation := "add"
                        Path := "/" ++ properties.Username
                        Value := getUserContent d properties }]) acc
        = acc ++ cps.map
            (fun p => Change.mk "add" ("/" ++ p.Username) (getUserContent d p)) := by
    induction cps with
    | nil => intro acc; simp
    | cons p ps ih => intro acc; simp [List.foldl_cons, ih]
  simpa using key []

theorem buildChanges_length (d : Deps) (cps : List ConnectionProperties) :
    (buildChanges d cps).length = cps.length := by
  simp [buildChanges_eq_map]

/-- C3. The list of changes built by the recovery job is as long as the
input, and at every index `i` its entry is the change with operation "add",
path "/" followed by the username of the `i`-th connection property, and value
`getUserContent` of the `i`-th connection property (and there is no entry
where the input has none). -/
theorem recovery_changes_pointwise (d : Deps) (cps : List ConnectionProperties) :
    (buildChanges d cps).length = cps.length ∧
    ∀ i : Nat, (buildChanges d cps)[i]? =
      (cps[i]?).map (fun p =>
        { Operation := "add", Path := "/" ++ p.Username, Value := getUserContent d p }) := by
  refine ⟨buildChanges_length d cps, ?_⟩
  intro i
  simp [buildChanges_eq_map, List.getElem?_map]

/-- C4. The content of a user has the password of the entry, the single
attribute from the resource-prefix attribute name to the entry's resource
prefix (to its database name when the prefix is empty), and the backend roles
of the entry's role (of the admin role type when the role is empty); an entry
with empty role and empty resource prefix gets the admin role type and its
database name as resource prefix. -/
theorem getUserContent_spec (d : Deps) (p : ConnectionProperties) :
    (getUserContent d p).Password = p.Password ∧
    (getUserContent d p).Attributes =
      [(d.resourcePrefixAttributeName,
        if p.ResourcePrefix = "" then p.DbName else p.ResourcePrefix)] ∧
    (getUserContent d p).BackendRoles =
      d.GetBackendRoles (if p.Role = "" then d.AdminRoleType else p.Role) ∧
    getUserContent d { p with Role := "", ResourcePrefix := "" } =
      { Attributes := [(d.resourcePrefixAttributeName, p.DbName)]
        BackendRoles := d.GetBackendRoles d.AdminRoleType
        Password := p.Password } := by
  refine ⟨rfl, rfl, ?_, ?_⟩
  · unfold getUserContent
    by_cases h : p.Role = "" <;> simp [h]
  · simp [getUserContent]

/-! ## The attempts on one batch -/

theorem attemptOutcome_zero (d : Deps) (b : List Change) (bp : BaseProvider) :
    attemptOutcome d b bp 0 = d.patchUsers bp.trace b := by
  simp [attemptOutcome, failedAttempts]

theorem attemptOutcome_one (d : Deps) (b : List Change) (bp : BaseProvider) :
    attemptOutcome d b bp 1 =
      d.patchUsers (bp.trace ++ [Event.patch b, Event.sleep 10]) b := by
  simp [attemptOutcome, failedAttempts]

theorem attemptOutcome_two (d : Deps) (b : List Change) (bp : BaseProvider) :
    attemptOutcome d b bp 2 =
      d.patchUsers
        (bp.trace ++ [Event.patch b, Event.sleep 10, Event.patch b, Event.sleep 10]) b := by
  simp [attemptOutcome, failedAttempts]

/-- The inner loop, by the outcomes of the three possible calls. -/
theorem attemptLoop_eq (d : Deps) (b : List Change) (bp : BaseProvider) :
    attemptLoop d b 0 none bp =
      match attemptOutcome d b bp 0 with
      | none => (none, { bp with trace := bp.trace ++ failedAttempts b 0 ++ [Event.patch b] })
      | some _ =>
        match attemptOutcome d b bp 1 with
        | none =>
          (none, { bp with trace := bp.trace ++ failedAttempts b 1 ++ [Event.patch b] })
        | some _ =>
          match attemptOutcome d b bp 2 with
          | none =>
            (none, { bp with trace := bp.trace ++ failedAttempts b 2 ++ [Event.patch b] })
          | some e => (some e, { bp with trace := bp.trace ++ failedAttempts b 3 }) := by
  rw [attemptOutcome_zero, attemptOutcome_one, attemptOutcome_two]
  rw [attemptLoop]
  simp only [callPatchUsers, timeSleep, failedAttempts]
  cases h0 : d.patchUsers bp.trace b with
  | none => simp
  | some e0 =>
    simp only [Nat.lt_succ_self, Nat.zero_lt_succ, if_true]
    rw [attemptLoop]
    simp only [callPatchUsers, timeSleep, List.append_assoc, List.cons_append,
      List.nil_append]
    cases h1 : d.patchUsers (bp.trace ++ [Event.patch b, Event.sleep 10]) b with
    | none => simp
    | some e1 =>
      simp only [Nat.reduceAdd, Nat.reduceLT, if_true]
      rw [attemptLoop]
      simp only [callPatchUsers, timeSleep, List.append_assoc, List.cons_append,
        List.nil_append]
      cases h2 : d.patchUsers
          (bp.trace ++ [Event.patch b, Event.sleep 10, Event.patch b, Event.sleep 10]) b with
      | none => simp
      | some e2 =>
        simp only [Nat.reduceAdd, Nat.reduceLT, if_true]
        rw [attemptLoop]
        simp

/-- The error of the inner loop is non-nil exactly when all three calls
failed. -/
theorem attemptLoop_err_isSome_iff (d : Deps) (b : List Change) (bp : BaseProvider) :
    (attemptLoop d b 0 none bp).1 ≠ none ↔
      ∀ j, j < 3 → attemptOutcome d b bp j ≠ none := by
  rw [attemptLoop_eq]
  constructor
  · intro h j hj
    have hj3 : j = 0 ∨ j = 1 ∨ j = 2 := by omega
    cases h0 : attemptOutcome d b bp 0 with
    | none => simp [h0] at h
    | some e0 =>
      cases h1 : attemptOutcome d b bp 1 with
      | none => simp [h0, h1] at h
      | some e1 =>
        cases h2 : attemptOutcome d b bp 2 with
        | none => simp [h0, h1, h2] at h
        | some e2 =>
          rcases hj3 with rfl | rfl | rfl
          · simp [h0]
          · simp [h1]
          · simp [h2]
  · intro h
    have h0 := h 0 (by omega)
    have h1 := h 1 (by omega)
    have h2 := h 2 (by omega)
    cases e0 : attemptOutcome d b bp 0 with
    | none => exact absurd e0 h0
    | some v0 =>
      cases e1 : attemptOutcome d b bp 1 with
      | none => exact absurd e1 h1
      | some v1 =>
        cases e2 : attemptOutcome d b bp 2 with
        | none => exact absurd e2 h2
        | some v2 => simp

/-- When all three calls fail the inner loop leaves three calls, each
followed by a pause. -/
theorem attemptLoop_exhausted (d : Deps) (b : List Change) (bp : BaseProvider)
    (hfail : ∀ j, j < 3 → attemptOutcome d b bp j ≠ none) :
    ∃ e, attemptLoop d b 0 none bp =
      (some e, { bp with trace := bp.trace ++ failedAttempts b 3 }) := by
  have h0 := hfail 0 (by omega)
  have h1 := hfail 1 (by omega)
  have h2 := hfail 2 (by omega)
  rw [attemptLoop_eq]
  cases e0 : attemptOutcome d b bp 0 with
  | none => exact absurd e0 h0
  | some v0 =>
    cases e1 : attemptOutcome d b bp 1 with
    | none => exact absurd e1 h1
    | some v1 =>
      cases e2 : attemptOutcome d b bp 2 with
      | none => exact absurd e2 h2
      | some v2 => exact ⟨v2, rfl⟩

/-- When the first success is on attempt `k + 1` the inner loop leaves `k`
failed attempts and one more call. -/
theorem attemptLoop_success (d : Deps) (b : List Change) (bp : BaseProvider) (k : Nat)
    (hk : k < 3) (hfail : ∀ j, j < k → attemptOutcome d b bp j ≠ none)
    (hok : attemptOutcome d b bp k = none) :
    attemptLoop d b 0 none bp =
      (none, { bp with trace := bp.trace ++ failedAttempts b k ++ [Event.patch b] }) := by
  rw [attemptLoop_eq]
  have hk3 : k = 0 ∨ k = 1 ∨ k = 2 := by omega
  rcases hk3 with rfl | rfl | rfl
  · simp [hok]
  · have h0 := hfail 0 (by omega)
    cases e0 : attemptOutcome d b bp 0 with
    | none => exact absurd e0 h0
    | some v0 => simp [hok]
  · have h0 := hfail 0 (by omega)
    have h1 := hfail 1 (by omega)
    cases e0 : attemptOutcome d b bp 0 with
    | none => exact absurd e0 h0
    | some v0 =>
      cases e1 : attemptOutcome d b bp 1 with
      | none => exact absurd e1 h1
      | some v1 => simp [hok]

/-! ## The outer loop -/

theorem recoveryLoop_exit (d : Deps) (changes : List Change) (position : Nat)
    (bp : BaseProvider) (h : ¬ position < changes.length) :
    recoveryLoop d changes position bp = { bp with recoveryState := RecoveryDoneState } := by
  rw [recoveryLoop]
  simp [h]

theorem recoveryLoop_abort (d : Deps) (changes : List Change) (position : Nat)
    (bp bp1 : BaseProvider) (e : String) (h : position < changes.length)
    (ha : attemptLoop d (currentBatch changes position) 0 none bp = (some e, bp1)) :
    recoveryLoop d changes position bp =
      { bp1 with recoveryState := RecoveryFailedState } := by
  rw [recoveryLoop]
  simp [h, ha]

theorem recoveryLoop_continue (d : Deps) (changes : List Change) (position : Nat)
    (bp bp1 : BaseProvider) (h : position < changes.length)
    (ha : attemptLoop d (currentBatch changes position) 0 none bp = (none, bp1)) :
    recoveryLoop d changes position bp =
      recoveryLoop d changes (position + batchSize) bp1 := by
  rw [recoveryLoop]
  simp [h, ha]

/-- From every loop head of a run, the rest of the loop gives the result of
the run. -/
theorem recoveryLoop_of_loopHead (d : Deps) (changes : List Change)
    (bp0 : BaseProvider) (position : Nat) (bp : BaseProvider)
    (h : LoopHead d changes bp0 position bp) :
    recoveryLoop d changes 0 bp0 = recoveryLoop d changes position bp := by
  induction h with
  | start => rfl
  | next hprev hpos hnone ih =>
    rw [ih]
    exact recoveryLoop_continue d changes _ _ _ hpos (Prod.ext hnone rfl)

theorem currentBatch_append_drop (changes : List Change) (position : Nat) :
    currentBatch changes position ++ changes.drop (position + batchSize) =
      changes.drop position := by
  unfold currentBatch slice
  by_cases h : position + batchSize < changes.length
  · simp only [h, if_true, Nat.add_sub_cancel_left]
    rw [← List.drop_drop]
    exact List.take_append_drop _ _
  · simp only [h, if_false]
    have hle : changes.length ≤ position + batchSize := Nat.le_of_not_lt h
    rw [List.drop_eq_nil_of_le hle]
    simp

theorem currentBatch_length (changes : List Change) (position : Nat) :
    (currentBatch changes position).length =
      if position + batchSize < changes.length then batchSize
      else changes.length - position := by
  unfold currentBatch slice
  by_cases h : position + batchSize < changes.length
  · simp only [h, if_true, Nat.add_sub_cancel_left, List.length_take, List.length_drop]
    omega
  · simp only [h, if_false, List.length_drop]

theorem patchCalls_append (xs ys : List Event) :
    patchCalls (xs ++ ys) = patchCalls xs ++ patchCalls ys := by
  induction xs with
  | nil => rfl
  | cons x xs ih => cases x <;> simp [patchCalls, ih]

theorem pauses_append (xs ys : List Event) :
    pauses (xs ++ ys) = pauses xs ++ pauses ys := by
  induction xs with
  | nil => rfl
  | cons x xs ih => cases x <;> simp [pauses, ih]

theorem patchCalls_map_patch (bs : List (List Change)) :
    patchCalls (bs.map Event.patch) = bs := by
  induction bs with
  | nil => rfl
  | cons b bs ih => simp [patchCalls, ih]

theorem patchCalls_failedAttempts (b : List Change) (j : Nat) :
    patchCalls (failedAttempts b j) = List.replicate j b := by
  induction j with
  | zero => rfl
  | succ j ih =>
    simp [failedAttempts, patchCalls_append, patchCalls, ih, List.replicate_succ']

theorem pauses_failedAttempts (b : List Change) (j : Nat) :
    pauses (failedAttempts b j) = List.replicate j 10 := by
  induction j with
  | zero => rfl
  | succ j ih =>
    simp [failedAttempts, pauses_append, pauses, ih, List.replicate_succ']

/-! ## A run in which every call succeeds -/

/-- With a client that never fails, the loop from `position` submits the
batches `bs`: they are the rest of the changes cut in order, each of 1 to 100
changes, there are `ceil (rest / 100)` of them, and the last holds the
remainder. -/
theorem recoveryLoop_all_succeed (d : Deps) (changes : List Change)
    (hsucc : ∀ (t : List Event) (b : List Change), d.patchUsers t b = none) :
    ∀ (n position : Nat) (bp : BaseProvider), changes.length - position = n →
      ∃ bs : List (List Change),
        recoveryLoop d changes position bp =
          { recoveryState := RecoveryDoneState
            trace := bp.trace ++ bs.map Event.patch
            jobs := bp.jobs } ∧
        bs.flatten = changes.drop position ∧
        (∀ b ∈ bs, 1 ≤ b.length ∧ b.length ≤ batchSize) ∧
        bs.length = (n + 99) / 100 ∧
        (0 < n → ∃ b, bs.getLast? = some b ∧
          b.length = if n % 100 = 0 then 100 else n % 100) := by
  intro n
  induction n using Nat.strong_induction_on with
  | _ n ih =>
    intro position bp hn
    by_cases hpos : position < changes.length
    · have hattempt : attemptLoop d (currentBatch changes position) 0 none bp =
          (none, { bp with trace := bp.trace ++ [Event.patch (currentBatch changes position)] }) := by
        have h := attemptLoop_success d (currentBatch changes position) bp 0 (by omega)
          (by intro j hj; omega) (hsucc _ _)
        simpa [failedAttempts] using h
      have hcat := currentBatch_append_drop changes position
      have hlen := currentBatch_length changes position
      simp only [batchSize] at hlen hcat
      have hb1 : 1 ≤ (currentBatch changes position).length := by
        rw [hlen]; split <;> omega
      have hb2 : (currentBatch changes position).length ≤ 100 := by
        rw [hlen]; split <;> omega
      have hrest : changes.length - (position + 100) < n := by omega
      have hcnt : (changes.length - (position + 100) + 99) / 100 + 1 = (n + 99) / 100 := by
        omega
      have hmod : position + 100 < changes.length →
          (changes.length - (position + 100)) % 100 = n % 100 := by
        intro h; omega
      have hfin : ¬ position + 100 < changes.length →
          (changes.length - (position + 100) + 99) / 100 = 0 ∧
          (currentBatch changes position).length =
            if n % 100 = 0 then 100 else n % 100 := by
        intro h
        refine ⟨by omega, ?_⟩
        rw [hlen, if_neg h]
        split <;> omega
      obtain ⟨bs, hrun, hflat, hsizes, hcount, hlast⟩ :=
        ih (changes.length - (position + 100)) hrest (position + 100)
          { bp with trace := bp.trace ++ [Event.patch (currentBatch changes position)] } rfl
      refine ⟨currentBatch changes position :: bs, ?_, ?_, ?_, ?_, ?_⟩
      · rw [recoveryLoop_continue d changes position bp _ hpos hattempt]
        simp only [batchSize]
        rw [hrun]
        simp
      · simp only [List.flatten_cons, hflat]
        exact hcat
      · intro b hb
        rcases List.mem_cons.mp hb with rfl | hb
        · exact ⟨hb1, hb2⟩
        · exact hsizes b hb
      · simp only [List.length_cons, hcount]
        exact hcnt
      · intro _
        by_cases hmore : position + 100 < changes.length
        · obtain ⟨b, hb, hbl⟩ := hlast (Nat.sub_pos_of_lt hmore)
          refine ⟨b, ?_, ?_⟩
          · rw [List.getLast?_cons, hb]
            rfl
          · rw [hbl, hmod hmore]
        · have hnil : bs = [] := by
            apply List.eq_nil_of_length_eq_zero
            rw [hcount]
            exact (hfin hmore).1
          exact ⟨currentBatch changes position, by simp [hnil], (hfin hmore).2⟩
    · refine ⟨[], ?_, ?_, ?_, ?_, ?_⟩
      · rw [recoveryLoop_exit d changes position bp hpos]
        simp
      · rw [List.drop_eq_nil_of_le (Nat.le_of_not_lt hpos)]
        rfl
      · intro b hb
        cases hb
      · simp only [List.length_nil]
        omega
      · intro h0
        omega

theorem recovery_all_succeed (d : Deps) (cps : List ConnectionProperties)
    (bp : BaseProvider)
    (hsucc : ∀ (t : List Event) (b : List Change), d.patchUsers t b = none) :
    (recovery d cps bp).recoveryState = RecoveryDoneState ∧
    (patchCalls (newEvents bp (recovery d cps bp))).flatten = buildChanges d cps ∧
    (∀ b ∈ patchCalls (newEvents bp (recovery d cps bp)),
      1 ≤ b.length ∧ b.length ≤ batchSize) ∧
    (patchCalls (newEvents bp (recovery d cps bp))).length = (cps.length + 99) / 100 ∧
    (0 < cps.length → ∃ b,
      (patchCalls (newEvents bp (recovery d cps bp))).getLast? = some b ∧
      b.length = if cps.length % 100 = 0 then 100 else cps.length % 100) := by
  obtain ⟨bs, hrun, hflat, hsizes, hcount, hlast⟩ :=
    recoveryLoop_all_succeed d (buildChanges d cps) hsucc (buildChanges d cps).length 0 bp rfl
  have hcalls : patchCalls (newEvents bp (recovery d cps bp)) = bs := by
    unfold recovery newEvents
    rw [hrun]
    simp [patchCalls_map_patch]
  rw [hcalls]
  rw [buildChanges_length] at hcount hlast
  refine ⟨?_, ?_, hsizes, hcount, hlast⟩
  · unfold recovery
    rw [hrun]
  · simpa using hflat

/-- C1. With a client that never fails, a run over `N` connection properties
submits exactly `ceil (N / 100)` batches to `patchUsers`; for `N = 0` there is
no batch, and for `N > 0` the last batch holds `N mod 100` changes, or 100
when `N` is a multiple of 100. -/
theorem recovery_batch_count (d : Deps) (cps : List ConnectionProperties)
    (bp : BaseProvider)
    (hsucc : ∀ (t : List Event) (b : List Change), d.patchUsers t b = none) :
    (patchCalls (newEvents bp (recovery d cps bp))).length = (cps.length + 99) / 100 ∧
    ((patchCalls (newEvents bp (recovery d cps bp))).getLast?).map List.length =
      if cps.length = 0 then none
      else some (if cps.length % 100 = 0 then 100 else cps.length % 100) := by
  obtain ⟨_, _, _, hcount, hlast⟩ := recovery_all_succeed d cps bp hsucc
  refine ⟨hcount, ?_⟩
  by_cases h0 : cps.length = 0
  · have hnil : patchCalls (newEvents bp (recovery d cps bp)) = [] := by
      apply List.eq_nil_of_length_eq_zero
      rw [hcount, h0]
    simp [hnil, h0]
  · obtain ⟨b, hb, hbl⟩ := hlast (Nat.pos_of_ne_zero h0)
    rw [hb]
    simp only [Option.map_some', h0, if_false, hbl]

/-- C2. With a client that never fails, the batches passed to `patchUsers`,
concatenated in call order, are the list of changes built from the input, and
every batch has between 1 and 100 changes. -/
theorem recovery_batches_partition (d : Deps) (cps : List ConnectionProperties)
    (bp : BaseProvider)
    (hsucc : ∀ (t : List Event) (b : List Change), d.patchUsers t b = none) :
    (patchCalls (newEvents bp (recovery d cps bp))).flatten = buildChanges d cps ∧
    ∀ b ∈ patchCalls (newEvents bp (recovery d cps bp)),
      1 ≤ b.length ∧ b.length ≤ 100 := by
  obtain ⟨_, hflat, hsizes, _, _⟩ := recovery_all_succeed d cps bp hsucc
  exact ⟨hflat, hsizes⟩

/-! ## Runs with failing calls -/

theorem newEvents_append (bp bp1 : BaseProvider) (es : List Event)
    (h : bp1.trace = bp.trace ++ es) : newEvents bp bp1 = es := by
  unfold newEvents
  rw [h]
  simp

/-- A run in which some batch fails its three attempts ends there: the
state is failed and the trace stops after the third failed attempt. -/
theorem recovery_exhausted (d : Deps) (changes : List Change) (bp0 : BaseProvider)
    (position : Nat) (bp : BaseProvider)
    (hhead : LoopHead d changes bp0 position bp)
    (hpos : position < changes.length)
    (hfail : ∀ j, j < 3 → attemptOutcome d (currentBatch changes position) bp j ≠ none) :
    recoveryLoop d changes 0 bp0 =
      { recoveryState := RecoveryFailedState
        trace := bp.trace ++ failedAttempts (currentBatch changes position) 3
        jobs := bp.jobs } := by
  obtain ⟨e, he⟩ := attemptLoop_exhausted d (currentBatch changes position) bp hfail
  rw [recoveryLoop_of_loopHead d changes bp0 position bp hhead,
    recoveryLoop_abort d changes position bp _ e hpos he]

/-- After a batch that first succeeds on attempt `k + 1` the loop is at its
head again, one batch further. -/
theorem loopHead_after_success (d : Deps) (changes : List Change) (bp0 : BaseProvider)
    (position : Nat) (bp : BaseProvider) (k : Nat)
    (hhead : LoopHead d changes bp0 position bp)
    (hpos : position < changes.length) (hk : k < 3)
    (hfail : ∀ j, j < k → attemptOutcome d (currentBatch changes position) bp j ≠ none)
    (hok : attemptOutcome d (currentBatch changes position) bp k = none) :
    LoopHead d changes bp0 (position + batchSize)
      { bp with trace := bp.trace ++ failedAttempts (currentBatch changes position) k ++
                  [Event.patch (currentBatch changes position)] } := by
  have ha := attemptLoop_success d (currentBatch changes position) bp k hk hfail hok
  have hn := LoopHead.next hhead hpos (by rw [ha])
  rw [ha] at hn
  exact hn

/-- The loop head of a run at a given position is unique. -/
theorem loopHead_unique (d : Deps) (changes : List Change) (bp0 : BaseProvider)
    (p1 : Nat) (b1 : BaseProvider) (h1 : LoopHead d changes bp0 p1 b1) :
    ∀ (p2 : Nat) (b2 : BaseProvider), LoopHead d changes bp0 p2 b2 → p1 = p2 → b1 = b2 := by
  induction h1 with
  | start =>
    intro p2 b2 h2 hp
    cases h2 with
    | start => rfl
    | next hprev hlt hnone =>
      simp only [batchSize] at hp
      omega
  | next hprev hlt hnone ih =>
    intro p2 b2 h2 hp
    cases h2 with
    | start =>
      simp only [batchSize] at hp
      omega
    | next hprev2 hlt2 hnone2 =>
      simp only [batchSize] at hp
      have hpp := Nat.add_right_cancel hp
      subst hpp
      rw [ih _ _ hprev2 rfl]

/-- When no batch of the run fails its three attempts, the loop ends in
state done from every loop head. -/
theorem recoveryLoop_done_of_no_exhaustion (d : Deps) (changes : List Change)
    (bp0 : BaseProvider)
    (hall : ∀ (position : Nat) (bp : BaseProvider), LoopHead d changes bp0 position bp →
      position < changes.length →
      ∃ j, j < 3 ∧ attemptOutcome d (currentBatch changes position) bp j = none) :
    ∀ (n position : Nat) (bp : BaseProvider), changes.length - position = n →
      LoopHead d changes bp0 position bp →
      (recoveryLoop d changes position bp).recoveryState = RecoveryDoneState := by
  intro n
  induction n using Nat.strong_induction_on with
  | _ n ih =>
    intro position bp hn hhead
    by_cases hpos : position < changes.length
    · have hnone : (attemptLoop d (currentBatch changes position) 0 none bp).1 = none := by
        by_contra hne
        obtain ⟨j, hj, hjn⟩ := hall position bp hhead hpos
        exact (attemptLoop_err_isSome_iff d _ bp).mp hne j hj hjn
      have hnext := LoopHead.next hhead hpos hnone
      rw [recoveryLoop_continue d changes position bp _ hpos (Prod.ext hnone rfl)]
      have hlt : changes.length - (position + batchSize) < n := by
        simp only [batchSize]
        omega
      exact ih _ hlt _ _ rfl hnext
    · rw [recoveryLoop_exit d changes position bp hpos]

/-- C5. When a batch of a run fails all three attempts, the run ends with
the recovery state failed, its trace stops after the third failed attempt, and
the only calls to `patchUsers` made since that batch was started are the three
attempts on it: no later batch is submitted and no earlier one again. -/
theorem recovery_aborts_on_exhausted_batch (d : Deps) (cps : List ConnectionProperties)
    (bp0 : BaseProvider) (position : Nat) (bp : BaseProvider)
    (hhead : LoopHead d (buildChanges d cps) bp0 position bp)
    (hpos : position < (buildChanges d cps).length)
    (hfail : ∀ j, j < 3 →
      attemptOutcome d (currentBatch (buildChanges d cps) position) bp j ≠ none) :
    (recovery d cps bp0).recoveryState = RecoveryFailedState ∧
    (recovery d cps bp0).trace =
      bp.trace ++ failedAttempts (currentBatch (buildChanges d cps) position) 3 ∧
    patchCalls (newEvents bp (recovery d cps bp0)) =
      List.replicate 3 (currentBatch (buildChanges d cps) position) := by
  have h := recovery_exhausted d (buildChanges d cps) bp0 position bp hhead hpos hfail
  unfold recovery
  rw [h]
  refine ⟨rfl, rfl, ?_⟩
  rw [newEvents_append bp _ (failedAttempts (currentBatch (buildChanges d cps) position) 3) rfl]
  exact patchCalls_failedAttempts _ 3

/-- C6. A batch of a run whose first successful call is attempt `k`
(`1 ≤ k ≤ 3`, so for `k = 3` attempts 1 and 2 fail and attempt 3 succeeds)
receives exactly `k` calls; the inner loop then ends without error, the job is
back at the head of its loop one batch further, and the run ends in state done
when no other batch fails its three attempts. -/
theorem recovery_batch_first_success (d : Deps) (cps : List ConnectionProperties)
    (bp0 : BaseProvider) (position : Nat) (bp : BaseProvider) (k : Nat)
    (hhead : LoopHead d (buildChanges d cps) bp0 position bp)
    (hpos : position < (buildChanges d cps).length)
    (hk1 : 1 ≤ k) (hk3 : k ≤ 3)
    (hfail : ∀ j, j < k - 1 →
      attemptOutcome d (currentBatch (buildChanges d cps) position) bp j ≠ none)
    (hok : attemptOutcome d (currentBatch (buildChanges d cps) position) bp (k - 1) = none) :
    attemptLoop d (currentBatch (buildChanges d cps) position) 0 none bp =
      (none,
        { bp with trace := bp.trace ++
                    failedAttempts (currentBatch (buildChanges d cps) position) (k - 1) ++
                    [Event.patch (currentBatch (buildChanges d cps) position)] }) ∧
    patchCalls
        (failedAttempts (currentBatch (buildChanges d cps) position) (k - 1) ++
          [Event.patch (currentBatch (buildChanges d cps) position)]) =
      List.replicate k (currentBatch (buildChanges d cps) position) ∧
    LoopHead d (buildChanges d cps) bp0 (position + batchSize)
      { bp with trace := bp.trace ++
                  failedAttempts (currentBatch (buildChanges d cps) position) (k - 1) ++
                  [Event.patch (currentBatch (buildChanges d cps) position)] } ∧
    recovery d cps bp0 =
      recoveryLoop d (buildChanges d cps) (position + batchSize)
        { bp with trace := bp.trace ++
                    failedAttempts (currentBatch (buildChanges d cps) position) (k - 1) ++
                    [Event.patch (currentBatch (buildChanges d cps) position)] } ∧
    ((∀ (position2 : Nat) (bp2 : BaseProvider),
        LoopHead d (buildChanges d cps) bp0 position2 bp2 →
        position2 < (buildChanges d cps).length → position2 ≠ position →
        ∃ j, j < 3 ∧
          attemptOutcome d (currentBatch (buildChanges d cps) position2) bp2 j = none) →
      (recovery d cps bp0).recoveryState = RecoveryDoneState) := by
  have hk : k - 1 < 3 := by omega
  have ha := attemptLoop_success d (currentBatch (buildChanges d cps) position) bp (k - 1)
    hk hfail hok
  have hnext := loopHead_after_success d (buildChanges d cps) bp0 position bp (k - 1)
    hhead hpos hk hfail hok
  refine ⟨ha, ?_, hnext, ?_, ?_⟩
  · rw [patchCalls_append, patchCalls_failedAttempts]
    simp only [patchCalls]
    rw [← List.replicate_succ']
    congr 1
    omega
  · unfold recovery
    exact recoveryLoop_of_loopHead d (buildChanges d cps) bp0 _ _ hnext
  · intro hothers
    have hall : EveryBatchApplied d (buildChanges d cps) bp0 := by
      intro position2 bp2 hhead2 hpos2
      by_cases hp : position2 = position
      · subst hp
        have hb := loopHead_unique d (buildChanges d cps) bp0 _ _ hhead2 _ _ hhead rfl
        subst hb
        exact ⟨k - 1, hk, hok⟩
      · exact hothers position2 bp2 hhead2 hpos2 hp
    unfold recovery
    exact recoveryLoop_done_of_no_exhaustion d (buildChanges d cps) bp0 hall _ 0 bp0 rfl
      LoopHead.start

/-- C7. A run (over any list, the empty one included) ends in state done
exactly when every batch is applied within its three attempts, and in state
failed otherwise. -/
theorem recovery_done_iff_every_batch_applied (d : Deps)
    (cps : List ConnectionProperties) (bp0 : BaseProvider) :
    ((recovery d cps bp0).recoveryState = RecoveryDoneState ↔
      EveryBatchApplied d (buildChanges d cps) bp0) ∧
    (¬ EveryBatchApplied d (buildChanges d cps) bp0 →
      (recovery d cps bp0).recoveryState = RecoveryFailedState) ∧
    (recovery d [] bp0).recoveryState = RecoveryDoneState := by
  have hfailed : ¬ EveryBatchApplied d (buildChanges d cps) bp0 →
      (recovery d cps bp0).recoveryState = RecoveryFailedState := by
    intro hnot
    unfold EveryBatchApplied at hnot
    push_neg at hnot
    obtain ⟨position, bp, hhead, hpos, hfail⟩ := hnot
    unfold recovery
    rw [recovery_exhausted d (buildChanges d cps) bp0 position bp hhead hpos hfail]
  have hdone : ∀ cps2 : List ConnectionProperties,
      EveryBatchApplied d (buildChanges d cps2) bp0 →
      (recovery d cps2 bp0).recoveryState = RecoveryDoneState := by
    intro cps2 hall
    unfold recovery
    exact recoveryLoop_done_of_no_exhaustion d (buildChanges d cps2) bp0 hall _ 0 bp0 rfl
      LoopHead.start
  refine ⟨⟨?_, hdone cps⟩, hfailed, ?_⟩
  · intro hd
    by_contra hnot
    have hf := hfailed hnot
    rw [hd] at hf
    exact absurd hf (by decide)
  · apply hdone
    intro position bp _ hpos
    simp [buildChanges] at hpos

/-- C8. A decoded request that arrives while the recovery state is running
leaves the provider as it was (state, jobs started, calls made) and is
answered with status 200 and an empty body. -/
theorem RecoverUsersHandler_while_running (usersToRecover : UsersToRecover)
    (bp : BaseProvider) (hrun : bp.recoveryState = RecoveryRunningState) :
    RecoverUsersHandler (Except.ok usersToRecover) bp =
      (bp, { status := 200, body := "" }) := by
  simp [RecoverUsersHandler, hrun, StatusOK]

/-- C9. A decoded request that arrives while the recovery state is not
running sets the state to running, starts exactly one job, over the
connection properties of the request, makes no client call itself, and is
answered with status 200 and an empty body. -/
theorem RecoverUsersHandler_starts_job (usersToRecover : UsersToRecover)
    (bp : BaseProvider) (hidle : bp.recoveryState ≠ RecoveryRunningState) :
    RecoverUsersHandler (Except.ok usersToRecover) bp =
      ({ recoveryState := RecoveryRunningState
         trace := bp.trace
         jobs := bp.jobs ++ [usersToRecover.ConnectionProperties] },
       { status := 200, body := "" }) := by
  simp [RecoverUsersHandler, hidle, StatusOK]

/-! ## The pauses of a batch -/

/-- A batch applied on attempt `k + 1` has `k` pauses behind it, each of ten
seconds and each between two calls. -/
theorem pauses_of_applied_batch (b : List Change) (k : Nat) :
    pauses (failedAttempts b k ++ [Event.patch b]) = List.replicate k 10 := by
  rw [pauses_append, pauses_failedAttempts]
  simp [pauses]

/-- A batch that fails its three attempts leaves three pauses behind it. -/
theorem pauses_of_exhausted_batch (b : List Change) :
    pauses (failedAttempts b 3) = [10, 10, 10] := by
  rw [pauses_failedAttempts]
  rfl

/-- C10. A run over one connection property on a client that always fails:
the batch is attempted three times and a pause of ten seconds follows each
failed attempt, the third included, so the job takes three pauses, not two,
before it sets the state to failed. -/
theorem recovery_pauses_after_last_attempt :
    recovery (sampleDeps alwaysFails) [sampleUser] runningProvider =
      { recoveryState := "failed"
        trace := [Event.patch sampleBatch, Event.sleep 10,
                  Event.patch sampleBatch, Event.sleep 10,
                  Event.patch sampleBatch, Event.sleep 10]
        jobs := [[sampleUser]] } ∧
    pauses (newEvents runningProvider
      (recovery (sampleDeps alwaysFails) [sampleUser] runningProvider)) = [10, 10, 10] := by
  have hb : currentBatch (buildChanges (sampleDeps alwaysFails) [sampleUser]) 0 =
      sampleBatch := by decide
  have h := recovery_exhausted (sampleDeps alwaysFails)
    (buildChanges (sampleDeps alwaysFails) [sampleUser]) runningProvider 0 runningProvider
    LoopHead.start (by decide)
    (by intro j _; simp [attemptOutcome, sampleDeps, alwaysFails])
  rw [hb] at h
  have hrun : recovery (sampleDeps alwaysFails) [sampleUser] runningProvider =
      { recoveryState := "failed"
        trace := [Event.patch sampleBatch, Event.sleep 10,
                  Event.patch sampleBatch, Event.sleep 10,
                  Event.patch sampleBatch, Event.sleep 10]
        jobs := [[sampleUser]] } := by
    unfold recovery
    rw [h]
    rfl
  refine ⟨hrun, ?_⟩
  rw [hrun]
  rfl

/-! ## Instances on the sample inputs -/

/-- On 201 connection properties and a client that never fails there are three
batches and the last holds one change. -/
theorem recovery_batch_count_witness :
    (patchCalls (newEvents runningProvider
      (recovery (sampleDeps neverFails) sampleUsers runningProvider))).length = 3 ∧
    ((patchCalls (newEvents runningProvider
      (recovery (sampleDeps neverFails) sampleUsers runningProvider))).getLast?).map
        List.length = some 1 := by
  have h := recovery_batch_count (sampleDeps neverFails) sampleUsers runningProvider
    (fun _ _ => rfl)
  have hl : sampleUsers.length = 201 := List.length_replicate _ _
  rw [hl] at h
  exact h

/-- On 201 connection properties and a client that never fails the batches
partition the list of changes. -/
theorem recovery_batches_partition_witness :
    (patchCalls (newEvents runningProvider
      (recovery (sampleDeps neverFails) sampleUsers runningProvider))).flatten =
        buildChanges (sampleDeps neverFails) sampleUsers ∧
    ∀ b ∈ patchCalls (newEvents runningProvider
        (recovery (sampleDeps neverFails) sampleUsers runningProvider)),
      1 ≤ b.length ∧ b.length ≤ 100 :=
  recovery_batches_partition (sampleDeps neverFails) sampleUsers runningProvider
    (fun _ _ => rfl)

/-- On 201 connection properties and a client that fails from its second call
on, the second batch fails three times and the third batch is never sent. -/
theorem recovery_aborts_on_exhausted_batch_witness :
    (recovery (sampleDeps failsAfterFirst) sampleUsers runningProvider).recoveryState =
      RecoveryFailedState ∧
    (recovery (sampleDeps failsAfterFirst) sampleUsers runningProvider).trace =
      [Event.patch (currentBatch (buildChanges (sampleDeps failsAfterFirst) sampleUsers) 0)] ++
        failedAttempts
          (currentBatch (buildChanges (sampleDeps failsAfterFirst) sampleUsers) 100) 3 ∧
    patchCalls (newEvents
        { runningProvider with
          trace := [Event.patch
            (currentBatch (buildChanges (sampleDeps failsAfterFirst) sampleUsers) 0)] }
        (recovery (sampleDeps failsAfterFirst) sampleUsers runningProvider)) =
      List.replicate 3
        (currentBatch (buildChanges (sampleDeps failsAfterFirst) sampleUsers) 100) := by
  have hlen : (buildChanges (sampleDeps failsAfterFirst) sampleUsers).length = 201 := by
    rw [buildChanges_length]
    rfl
  have hhead := loopHead_after_success (sampleDeps failsAfterFirst)
    (buildChanges (sampleDeps failsAfterFirst) sampleUsers) runningProvider 0
    runningProvider 0 LoopHead.start (by rw [hlen]; omega) (by omega)
    (by intro j hj; omega) rfl
  exact recovery_aborts_on_exhausted_batch (sampleDeps failsAfterFirst) sampleUsers
    runningProvider 100
    { runningProvider with
      trace := [Event.patch
        (currentBatch (buildChanges (sampleDeps failsAfterFirst) sampleUsers) 0)] }
    hhead (by rw [hlen]; omega)
    (by
      intro j _
      simp [attemptOutcome, sampleDeps, failsAfterFirst, patchCalls_append, patchCalls])

/-- On one connection property and a client whose first two calls fail, the
batch receives three calls and the loop moves on. -/
theorem recovery_batch_first_success_witness :
    patchCalls
        (failedAttempts (currentBatch (buildChanges (sampleDeps failsTwice) [sampleUser]) 0)
            (3 - 1) ++
          [Event.patch (currentBatch (buildChanges (sampleDeps failsTwice) [sampleUser]) 0)]) =
      List.replicate 3 (currentBatch (buildChanges (sampleDeps failsTwice) [sampleUser]) 0) ∧
    LoopHead (sampleDeps failsTwice) (buildChanges (sampleDeps failsTwice) [sampleUser])
      runningProvider (0 + batchSize)
      { runningProvider with
        trace := runningProvider.trace ++
          failedAttempts (currentBatch (buildChanges (sampleDeps failsTwice) [sampleUser]) 0)
            (3 - 1) ++
          [Event.patch (currentBatch (buildChanges (sampleDeps failsTwice) [sampleUser]) 0)] } :=
  have h := recovery_batch_first_success (sampleDeps failsTwice) [sampleUser]
    runningProvider 0 runningProvider 3 LoopHead.start (by decide) (by omega) (by omega)
    (by
      intro j hj
      have hj2 : j = 0 ∨ j = 1 := by omega
      rcases hj2 with rfl | rfl <;>
        simp [attemptOutcome, sampleDeps, failsTwice, patchCalls_append,
          patchCalls_failedAttempts, runningProvider, patchCalls])
    (by
      simp [attemptOutcome, sampleDeps, failsTwice, patchCalls_append,
        patchCalls_failedAttempts, runningProvider, patchCalls])
  ⟨h.2.1, h.2.2.1⟩

/-- On one connection property and a client that always fails the run ends in
state failed. -/
theorem recovery_done_iff_every_batch_applied_witness :
    (recovery (sampleDeps alwaysFails) [sampleUser] runningProvider).recoveryState =
      RecoveryFailedState :=
  (recovery_done_iff_every_batch_applied (sampleDeps alwaysFails) [sampleUser]
    runningProvider).2.1
    (by
      intro hall
      obtain ⟨j, _, hj⟩ := hall 0 runningProvider LoopHead.start (by decide)
      simp [attemptOutcome, sampleDeps, alwaysFails] at hj)

/-- A trigger received by a running provider changes nothing. -/
theorem RecoverUsersHandler_while_running_witness :
    RecoverUsersHandler (Except.ok { ConnectionProperties := sampleUsers }) runningProvider =
      (runningProvider, { status := 200, body := "" }) :=
  RecoverUsersHandler_while_running { ConnectionProperties := sampleUsers } runningProvider rfl

/-- A trigger received by the idle provider starts the job. -/
theorem RecoverUsersHandler_starts_job_witness :
    RecoverUsersHandler (Except.ok { ConnectionProperties := [sampleUser] }) idleProvider =
      (runningProvider, { status := 200, body := "" }) :=
  RecoverUsersHandler_starts_job { ConnectionProperties := [sampleUser] } idleProvider
    (by decide)

/-! ## Any pattern of successes and failures -/

/-- Whatever the client answers, the inner loop makes between one and three
calls, all with the batch it was given, and leaves `recoveryState` and `jobs`
as they were. -/
theorem attemptLoop_shape (d : Deps) (b : List Change) (bp : BaseProvider) :
    ∃ (k : Nat) (es : List Event), 1 ≤ k ∧ k ≤ 3 ∧
      (attemptLoop d b 0 none bp).2 = { bp with trace := bp.trace ++ es } ∧
      patchCalls es = List.replicate k b := by
  rw [attemptLoop_eq]
  cases attemptOutcome d b bp 0 with
  | none =>
    refine ⟨1, failedAttempts b 0 ++ [Event.patch b], by omega, by omega, ?_, ?_⟩
    · simp
    · rw [patchCalls_append, patchCalls_failedAttempts]; rfl
  | some e0 =>
    cases attemptOutcome d b bp 1 with
    | none =>
      refine ⟨2, failedAttempts b 1 ++ [Event.patch b], by omega, by omega, ?_, ?_⟩
      · simp
      · rw [patchCalls_append, patchCalls_failedAttempts]; rfl
    | some e1 =>
      cases attemptOutcome d b bp 2 with
      | none =>
        refine ⟨3, failedAttempts b 2 ++ [Event.patch b], by omega, by omega, ?_, ?_⟩
        · simp
        · rw [patchCalls_append, patchCalls_failedAttempts]; rfl
      | some e2 =>
        refine ⟨3, failedAttempts b 3, by omega, by omega, rfl, ?_⟩
        exact patchCalls_failedAttempts b 3

theorem attemptLoop_recoveryState (d : Deps) (b : List Change) (bp : BaseProvider) :
    (attemptLoop d b 0 none bp).2.recoveryState = bp.recoveryState := by
  obtain ⟨k, es, _, _, h, _⟩ := attemptLoop_shape d b bp
  rw [h]

/-- The outer loop always ends, in state done or in state failed. -/
theorem recoveryLoop_final_state (d : Deps) (changes : List Change) :
    ∀ (n position : Nat) (bp : BaseProvider), changes.length - position = n →
      (recoveryLoop d changes position bp).recoveryState = RecoveryDoneState ∨
      (recoveryLoop d changes position bp).recoveryState = RecoveryFailedState := by
  intro n
  induction n using Nat.strong_induction_on with
  | _ n ih =>
    intro position bp hn
    by_cases hpos : position < changes.length
    · cases ha : attemptLoop d (currentBatch changes position) 0 none bp with
      | mk err bp1 =>
        cases err with
        | none =>
          rw [recoveryLoop_continue d changes position bp bp1 hpos ha]
          have hlt : changes.length - (position + batchSize) < n := by
            simp only [batchSize]
            omega
          exact ih _ hlt _ _ rfl
        | some e =>
          rw [recoveryLoop_abort d changes position bp bp1 e hpos ha]
          exact Or.inr rfl
    · rw [recoveryLoop_exit d changes position bp hpos]
      exact Or.inl rfl

/-- Whatever the client answers, the loop from `position` adds at most three
calls for each batch that is left. -/
theorem recoveryLoop_calls_bound (d : Deps) (changes : List Change) :
    ∀ (n position : Nat) (bp : BaseProvider), changes.length - position = n →
      ∃ es : List Event,
        (recoveryLoop d changes position bp).trace = bp.trace ++ es ∧
        (patchCalls es).length ≤ 3 * ((n + 99) / 100) := by
  intro n
  induction n using Nat.strong_induction_on with
  | _ n ih =>
    intro position bp hn
    by_cases hpos : position < changes.length
    · obtain ⟨k, es, hk1, hk3, hbp, hcalls⟩ :=
        attemptLoop_shape d (currentBatch changes position) bp
      have hrest : changes.length - (position + 100) < n := by omega
      have hcnt : (changes.length - (position + 100) + 99) / 100 + 1 = (n + 99) / 100 := by
        omega
      have hlen : (patchCalls es).length = k := by
        rw [hcalls, List.length_replicate]
      cases ha : attemptLoop d (currentBatch changes position) 0 none bp with
      | mk err bp1 =>
        have hbp1 : bp1 = { bp with trace := bp.trace ++ es } := by
          rw [← hbp, ha]
        cases err with
        | none =>
          rw [recoveryLoop_continue d changes position bp bp1 hpos ha]
          obtain ⟨es2, htrace, hbound⟩ := ih _ hrest (position + 100) bp1 rfl
          refine ⟨es ++ es2, ?_, ?_⟩
          · simp only [batchSize]
            rw [htrace, hbp1]
            simp
          · rw [patchCalls_append, List.length_append, hlen]
            omega
        | some e =>
          rw [recoveryLoop_abort d changes position bp bp1 e hpos ha]
          refine ⟨es, ?_, ?_⟩
          · rw [hbp1]
          · rw [hlen]
            omega
    · refine ⟨[], ?_, ?_⟩
      · rw [recoveryLoop_exit d changes position bp hpos]
        simp
      · simp [patchCalls]

/-- C11. A request whose body fails to decode is answered with status 500
and the text of the decode error, and the provider is left as it was: same
recovery state, no job started, no client call. -/
theorem RecoverUsersHandler_decode_failure (err : String) (bp : BaseProvider) :
    RecoverUsersHandler (Except.error err) bp = (bp, { status := 500, body := err }) := by
  rfl

/-- C16. Whatever the client answers, a run over `N` connection properties
makes at most `3 * ceil (N / 100)` calls to `patchUsers`; it makes exactly
`ceil (N / 100)` calls when no call fails; and at every batch of the run the
calls made for it, between one and three, all pass that same batch. -/
theorem recovery_calls_bound (d : Deps) (cps : List ConnectionProperties)
    (bp0 : BaseProvider) :
    (patchCalls (newEvents bp0 (recovery d cps bp0))).length ≤
      3 * ((cps.length + 99) / 100) ∧
    ((∀ (t : List Event) (b : List Change), d.patchUsers t b = none) →
      (patchCalls (newEvents bp0 (recovery d cps bp0))).length =
        (cps.length + 99) / 100) ∧
    (∀ (position : Nat) (bp : BaseProvider),
      LoopHead d (buildChanges d cps) bp0 position bp →
      position < (buildChanges d cps).length →
      ∃ k, 1 ≤ k ∧ k ≤ 3 ∧
        patchCalls (newEvents bp
          (attemptLoop d (currentBatch (buildChanges d cps) position) 0 none bp).2) =
        List.replicate k (currentBatch (buildChanges d cps) position)) := by
  refine ⟨?_, ?_, ?_⟩
  · obtain ⟨es, htrace, hbound⟩ :=
      recoveryLoop_calls_bound d (buildChanges d cps) (buildChanges d cps).length 0 bp0 rfl
    rw [buildChanges_length] at hbound
    have hnew : newEvents bp0 (recovery d cps bp0) = es :=
      newEvents_append bp0 _ es htrace
    rw [hnew]
    exact hbound
  · intro hsucc
    exact (recovery_all_succeed d cps bp0 hsucc).2.2.2.1
  · intro position bp _ _
    obtain ⟨k, es, hk1, hk3, hbp, hcalls⟩ :=
      attemptLoop_shape d (currentBatch (buildChanges d cps) position) bp
    refine ⟨k, hk1, hk3, ?_⟩
    rw [newEvents_append bp _ es (by rw [hbp])]
    exact hcalls

/-! ## Invariants of the interleaved executions -/

theorem launched_self (d : Deps) (bp : BaseProvider) : launched d bp bp = [] := by
  simp [launched]

/-- A step of a job either goes on and leaves the recovery state as it was, or
ends the job with the state done or failed. -/
theorem jobStep_cases (d : Deps) (job : Job) (bp : BaseProvider) :
    ((jobStep d job bp).2 ≠ none ∧
      (jobStep d job bp).1.recoveryState = bp.recoveryState) ∨
    ((jobStep d job bp).2 = none ∧
      ((jobStep d job bp).1.recoveryState = RecoveryDoneState ∨
       (jobStep d job bp).1.recoveryState = RecoveryFailedState)) := by
  by_cases hpos : job.position < job.changes.length
  · have hstate := attemptLoop_recoveryState d (currentBatch job.changes job.position) bp
    rw [jobStep, if_pos hpos]
    cases ha : attemptLoop d (currentBatch job.changes job.position) 0 none bp with
    | mk err bp1 =>
      rw [ha] at hstate
      cases err with
      | none =>
        left
        exact ⟨by simp, hstate⟩
      | some e =>
        right
        exact ⟨rfl, Or.inr rfl⟩
  · rw [jobStep, if_neg hpos]
    right
    exact ⟨rfl, Or.inl rfl⟩

theorem RecoverUsersHandler_known (decoded : Except String UsersToRecover)
    (bp : BaseProvider) (h : KnownState bp) :
    KnownState (RecoverUsersHandler decoded bp).1 := by
  cases decoded with
  | error e => exact h
  | ok u =>
    by_cases hrun : bp.recoveryState = RecoveryRunningState
    · simpa [RecoverUsersHandler, hrun] using h
    · simp only [RecoverUsersHandler, ne_eq, hrun, not_false_eq_true, if_true]
      exact Or.inr (Or.inl rfl)

theorem step_advance_none (d : Deps) (s : System) (k : Nat)
    (hk : s.inFlight[k]? = none) : step d s (Action.advance k) = s := by
  simp only [step, hk]

theorem step_advance_continue (d : Deps) (s : System) (k : Nat) (job job1 : Job)
    (bp1 : BaseProvider) (hk : s.inFlight[k]? = some job)
    (hj : jobStep d job s.bp = (bp1, some job1)) :
    step d s (Action.advance k) = { bp := bp1, inFlight := s.inFlight.set k job1 } := by
  simp only [step, hk, hj]

theorem step_advance_end (d : Deps) (s : System) (k : Nat) (job : Job)
    (bp1 : BaseProvider) (hk : s.inFlight[k]? = some job)
    (hj : jobStep d job s.bp = (bp1, none)) :
    step d s (Action.advance k) = { bp := bp1, inFlight := s.inFlight.eraseIdx k } := by
  simp only [step, hk, hj]

theorem step_complete_none (d : Deps) (s : System) (k : Nat)
    (hk : s.inFlight[k]? = none) : step d s (Action.complete k) = s := by
  simp only [step, hk]

theorem step_complete_some (d : Deps) (s : System) (k : Nat) (job : Job)
    (hk : s.inFlight[k]? = some job) :
    step d s (Action.complete k) =
      { bp := recoveryLoop d job.changes job.position s.bp
        inFlight := s.inFlight.eraseIdx k } := by
  simp only [step, hk]

theorem step_known (d : Deps) (s : System) (a : Action) (h : KnownState s.bp) :
    KnownState (step d s a).bp := by
  cases a with
  | request decoded => exact RecoverUsersHandler_known decoded s.bp h
  | poll => exact h
  | advance k =>
    cases hk : s.inFlight[k]? with
    | none => rw [step_advance_none d s k hk]; exact h
    | some job =>
      have hc := jobStep_cases d job s.bp
      cases hj : jobStep d job s.bp with
      | mk bp1 next =>
        rw [hj] at hc
        cases next with
        | none =>
          rw [step_advance_end d s k job bp1 hk hj]
          rcases hc with ⟨hne, _⟩ | ⟨_, hd | hf⟩
          · exact absurd rfl hne
          · exact Or.inr (Or.inr (Or.inr hd))
          · exact Or.inr (Or.inr (Or.inl hf))
        | some job1 =>
          rw [step_advance_continue d s k job job1 bp1 hk hj]
          rcases hc with ⟨_, hsame⟩ | ⟨hnone, _⟩
          · have hsame2 : bp1.recoveryState = s.bp.recoveryState := hsame
            unfold KnownState at h ⊢
            rw [hsame2]
            exact h
          · cases hnone
  | complete k =>
    cases hk : s.inFlight[k]? with
    | none => rw [step_complete_none d s k hk]; exact h
    | some job =>
      rw [step_complete_some d s k job hk]
      rcases recoveryLoop_final_state d job.changes _ job.position s.bp rfl with hd | hf
      · exact Or.inr (Or.inr (Or.inr hd))
      · exact Or.inr (Or.inr (Or.inl hf))

theorem run_known (d : Deps) (actions : List Action) :
    ∀ s : System, KnownState s.bp → KnownState (run d s actions).bp := by
  induction actions with
  | nil => intro s h; exact h
  | cons a rest ih =>
    intro s h
    exact ih (step d s a) (step_known d s a h)

/-- C12. Starting from the state idle, after any sequence of recovery
requests (decoded or not), polls and job steps or completions, the recovery
state is one of idle, running, failed and done, and `GetRecoveryStateHandler`
answers 200 with that state as body and leaves the provider as it is. -/
theorem GetRecoveryStateHandler_reports_state (d : Deps) (bp0 : BaseProvider)
    (hidle : bp0.recoveryState = RecoveryIdleState) (actions : List Action) :
    ((run d { bp := bp0, inFlight := [] } actions).bp.recoveryState = "idle" ∨
     (run d { bp := bp0, inFlight := [] } actions).bp.recoveryState = "running" ∨
     (run d { bp := bp0, inFlight := [] } actions).bp.recoveryState = "failed" ∨
     (run d { bp := bp0, inFlight := [] } actions).bp.recoveryState = "done") ∧
    GetRecoveryStateHandler (run d { bp := bp0, inFlight := [] } actions).bp =
      ((run d { bp := bp0, inFlight := [] } actions).bp,
       { status := 200
         body := (run d { bp := bp0, inFlight := [] } actions).bp.recoveryState }) := by
  refine ⟨?_, rfl⟩
  exact run_known d actions { bp := bp0, inFlight := [] } (Or.inl hidle)

theorem running_ne_done : RecoveryDoneState ≠ RecoveryRunningState := by decide

theorem running_ne_failed : RecoveryFailedState ≠ RecoveryRunningState := by decide

theorem RecoverUsersHandler_single (d : Deps) (decoded : Except String UsersToRecover)
    (s : System) (h : SingleJob s) :
    SingleJob (step d s (Action.request decoded)) := by
  obtain ⟨hlen, hiff⟩ := h
  cases decoded with
  | error e =>
    have hstep : step d s (Action.request (Except.error e)) = s := by
      simp [step, RecoverUsersHandler, launched]
    rw [hstep]
    exact ⟨hlen, hiff⟩
  | ok u =>
    by_cases hrun : s.bp.recoveryState = RecoveryRunningState
    · have hstep : step d s (Action.request (Except.ok u)) = s := by
        simp [step, RecoverUsersHandler, launched, hrun]
      rw [hstep]
      exact ⟨hlen, hiff⟩
    · have hnil : s.inFlight = [] := by
        by_contra hne
        exact hrun (hiff.mp hne)
      have hstep : step d s (Action.request (Except.ok u)) =
          { bp := { s.bp with recoveryState := RecoveryRunningState
                              jobs := s.bp.jobs ++ [u.ConnectionProperties] }
            inFlight := [{ changes := buildChanges d u.ConnectionProperties
                           position := 0 }] } := by
        simp [step, RecoverUsersHandler, launched, hrun, hnil]
      rw [hstep]
      refine ⟨by simp, ?_⟩
      simp

theorem step_single (d : Deps) (s : System) (a : Action) (h : SingleJob s) :
    SingleJob (step d s a) := by
  cases a with
  | request decoded => exact RecoverUsersHandler_single d decoded s h
  | poll => exact h
  | advance k =>
    cases hk : s.inFlight[k]? with
    | none => rw [step_advance_none d s k hk]; exact h
    | some job =>
      obtain ⟨bp, inFlight⟩ := s
      obtain ⟨hlen, hiff⟩ := h
      simp only at hlen hiff hk
      rcases inFlight with _ | ⟨j, _ | ⟨j2, rest⟩⟩
      · simp at hk
      · cases k with
        | succ k => simp at hk
        | zero =>
          have hrun : bp.recoveryState = RecoveryRunningState := hiff.mp (by simp)
          have hc := jobStep_cases d job bp
          cases hj : jobStep d job bp with
          | mk bp1 next =>
            rw [hj] at hc
            cases next with
            | none =>
              rw [step_advance_end d _ 0 job bp1 hk hj]
              refine ⟨by simp, ?_⟩
              rcases hc with ⟨hne, _⟩ | ⟨_, hd | hf⟩
              · exact absurd rfl hne
              · have hd2 : bp1.recoveryState = RecoveryDoneState := hd
                simp [hd2, running_ne_done]
              · have hf2 : bp1.recoveryState = RecoveryFailedState := hf
                simp [hf2, running_ne_failed]
            | some job1 =>
              rw [step_advance_continue d _ 0 job job1 bp1 hk hj]
              rcases hc with ⟨_, hsame⟩ | ⟨hnone, _⟩
              · have hsame2 : bp1.recoveryState = bp.recoveryState := hsame
                refine ⟨by simp, ?_⟩
                simp [hsame2, hrun]
              · cases hnone
      · simp at hlen
  | complete k =>
    cases hk : s.inFlight[k]? with
    | none => rw [step_complete_none d s k hk]; exact h
    | some job =>
      obtain ⟨bp, inFlight⟩ := s
      obtain ⟨hlen, hiff⟩ := h
      simp only at hlen hiff hk
      rcases inFlight with _ | ⟨j, _ | ⟨j2, rest⟩⟩
      · simp at hk
      · cases k with
        | succ k => simp at hk
        | zero =>
          rw [step_complete_some d _ 0 job hk]
          refine ⟨by simp, ?_⟩
          rcases recoveryLoop_final_state d job.changes _ job.position bp rfl with hd | hf
          · simp [hd, running_ne_done]
          · simp [hf, running_ne_failed]
      · simp at hlen

theorem run_single (d : Deps) (actions : List Action) :
    ∀ s : System, SingleJob s → SingleJob (run d s actions) := by
  induction actions with
  | nil => intro s h; exact h
  | cons a rest ih =>
    intro s h
    exact ih (step d s a) (step_single d s a h)

/-- C13. In every execution of triggers (each one step), polls and job steps
that starts in state idle with no job in flight, at most one recovery job is
in flight at any time, and a job is in flight exactly when the recovery state
is running. -/
theorem recovery_single_job_in_flight (d : Deps) (bp0 : BaseProvider)
    (hidle : bp0.recoveryState = RecoveryIdleState) (actions : List Action) :
    (run d { bp := bp0, inFlight := [] } actions).inFlight.length ≤ 1 ∧
    ((run d { bp := bp0, inFlight := [] } actions).inFlight ≠ [] ↔
      (run d { bp := bp0, inFlight := [] } actions).bp.recoveryState =
        RecoveryRunningState) := by
  apply run_single d actions { bp := bp0, inFlight := [] }
  refine ⟨by simp, ?_⟩
  simp only [ne_eq, not_true_eq_false, false_iff]
  rw [hidle]
  decide

/-- A step of a job is one iteration of the outer loop of `recovery`. -/
theorem recoveryLoop_eq_jobStep (d : Deps) (job : Job) (bp : BaseProvider) :
    recoveryLoop d job.changes job.position bp =
      match jobStep d job bp with
      | (bp1, none) => bp1
      | (bp1, some job1) => recoveryLoop d job1.changes job1.position bp1 := by
  by_cases hpos : job.position < job.changes.length
  · rw [jobStep, if_pos hpos]
    cases ha : attemptLoop d (currentBatch job.changes job.position) 0 none bp with
    | mk err bp1 =>
      cases err with
      | none => exact recoveryLoop_continue d job.changes job.position bp bp1 hpos ha
      | some e => exact recoveryLoop_abort d job.changes job.position bp bp1 e hpos ha
  · rw [jobStep, if_neg hpos]
    exact recoveryLoop_exit d job.changes job.position bp hpos

/-- The job started by an accepted trigger, run to its end, is `recovery` on
the connection properties of the request. -/
theorem complete_launched (d : Deps) (u : UsersToRecover) (bp : BaseProvider)
    (hidle : bp.recoveryState ≠ RecoveryRunningState) :
    step d (step d { bp := bp, inFlight := [] } (Action.request (Except.ok u)))
        (Action.complete 0) =
      { bp := recovery d u.ConnectionProperties
                { bp with recoveryState := RecoveryRunningState
                          jobs := bp.jobs ++ [u.ConnectionProperties] }
        inFlight := [] } := by
  simp [step, RecoverUsersHandler, launched, hidle, recovery]

/-- On the sample execution from the idle provider. -/
theorem GetRecoveryStateHandler_reports_state_witness :
    ((run (sampleDeps failsTwice) { bp := idleProvider, inFlight := [] }
        sampleActions).bp.recoveryState = "idle" ∨
     (run (sampleDeps failsTwice) { bp := idleProvider, inFlight := [] }
        sampleActions).bp.recoveryState = "running" ∨
     (run (sampleDeps failsTwice) { bp := idleProvider, inFlight := [] }
        sampleActions).bp.recoveryState = "failed" ∨
     (run (sampleDeps failsTwice) { bp := idleProvider, inFlight := [] }
        sampleActions).bp.recoveryState = "done") ∧
    GetRecoveryStateHandler
        (run (sampleDeps failsTwice) { bp := idleProvider, inFlight := [] } sampleActions).bp =
      ((run (sampleDeps failsTwice) { bp := idleProvider, inFlight := [] } sampleActions).bp,
       { status := 200
         body := (run (sampleDeps failsTwice) { bp := idleProvider, inFlight := [] }
                    sampleActions).bp.recoveryState }) :=
  GetRecoveryStateHandler_reports_state (sampleDeps failsTwice) idleProvider rfl sampleActions

/-- On the sample execution from the idle provider. -/
theorem recovery_single_job_in_flight_witness :
    (run (sampleDeps failsTwice) { bp := idleProvider, inFlight := [] }
        sampleActions).inFlight.length ≤ 1 ∧
    ((run (sampleDeps failsTwice) { bp := idleProvider, inFlight := [] }
        sampleActions).inFlight ≠ [] ↔
      (run (sampleDeps failsTwice) { bp := idleProvider, inFlight := [] }
        sampleActions).bp.recoveryState = RecoveryRunningState) :=
  recovery_single_job_in_flight (sampleDeps failsTwice) idleProvider rfl sampleActions

/-- On 201 connection properties: at most nine calls on a client whose first
two calls fail, and three calls on a client that never fails. -/
theorem recovery_calls_bound_witness :
    (patchCalls (newEvents runningProvider
      (recovery (sampleDeps failsTwice) sampleUsers runningProvider))).length ≤ 9 ∧
    (patchCalls (newEvents runningProvider
      (recovery (sampleDeps neverFails) sampleUsers runningProvider))).length = 3 := by
  have hl : sampleUsers.length = 201 := List.length_replicate _ _
  have h1 := (recovery_calls_bound (sampleDeps failsTwice) sampleUsers runningProvider).1
  have h2 := (recovery_calls_bound (sampleDeps neverFails) sampleUsers runningProvider).2.1
    (fun _ _ => rfl)
  rw [hl] at h1 h2
  exact ⟨h1, h2⟩

end Recovery

/-! # Theorems on registration and protocol version -/

namespace Physical

/-- C14. For every response of the version endpoint `getApiVersion` gives a
version and no error: V1 when the status is not a success; V2 when the status
is a success and the body does not parse; and, when the body parses, V2 if
and only if `major ≥ 3` and 3 is among `supportedMajors`, V1 otherwise. -/
theorem getApiVersion_resolution (status : Nat) (body : Option ApiVersionInfo)
    (info : ApiVersionInfo) :
    (getApiVersion { status := status, body := body } = ApiVersion.ApiV1 ∨
      getApiVersion { status := status, body := body } = ApiVersion.ApiV2) ∧
    (getApiVersion { status := status, body := body } =
      if isSuccess status = false then ApiVersion.ApiV1
      else match body with
        | none => ApiVersion.ApiV2
        | some i =>
          if 3 ≤ i.major ∧ (3 : Int) ∈ i.supportedMajors then ApiVersion.ApiV2
          else ApiVersion.ApiV1) ∧
    (getApiVersion { status := 200, body := some info } = ApiVersion.ApiV2 ↔
      3 ≤ info.major ∧ (3 : Int) ∈ info.supportedMajors) ∧
    getApiVersion { status := 200, body := some ⟨3, 4, [1, 2, 3]⟩ } = ApiVersion.ApiV2 ∧
    getApiVersion { status := 200, body := some ⟨2, 4, [1, 2]⟩ } = ApiVersion.ApiV1 ∧
    getApiVersion { status := 200, body := none } = ApiVersion.ApiV2 ∧
    getApiVersion { status := 401, body := body } = ApiVersion.ApiV1 := by
  refine ⟨?_, ?_, ?_, by decide, by decide, by decide, ?_⟩
  · cases getApiVersion { status := status, body := body }
    · exact Or.inl rfl
    · exact Or.inr rfl
  · unfold getApiVersion
    cases hs : isSuccess status <;> simp
  · have h200 : isSuccess 200 = true := by decide
    unfold getApiVersion
    simp only [h200, if_true]
    by_cases hc : 3 ≤ info.major ∧ (3 : Int) ∈ info.supportedMajors
    · simp [hc]
    · simp [hc]
  · have h401 : isSuccess 401 = false := by decide
    unfold getApiVersion
    simp [h401]

/-- C15. Whatever the health record was, `doRegistrationRequest` overwrites it
with "OK" when the aggregator answered with a 2xx status, and with "PROBLEM"
for every other status and for a transport error; so 200 gives "OK" and 500
gives "PROBLEM". -/
theorem doRegistrationRequest_health (health : ComponentHealth) (status : Nat)
    (err : String) :
    doRegistrationRequest (Except.ok status) health =
      { Status := if 200 ≤ status ∧ status < 300 then "OK" else "PROBLEM" } ∧
    doRegistrationRequest (Except.error err) health = { Status := "PROBLEM" } ∧
    doRegistrationRequest (Except.ok 200) health = { Status := "OK" } ∧
    doRegistrationRequest (Except.ok 500) health = { Status := "PROBLEM" } := by
  refine ⟨?_, rfl, rfl, rfl⟩
  unfold doRegistrationRequest isSuccess
  by_cases h1 : 200 ≤ status <;> by_cases h2 : status < 300 <;> simp [h1, h2]

end Physical

/-! # Theorems on the request builders -/

namespace Api

theorem finish_method_url (req : HttpRequest) (params : List (String × String))
    (header : List (String × List String)) (ctx : Option String) :
    (finish req params header ctx).Method = req.Method ∧
    (finish req params header ctx).URL = req.URL := by
  unfold finish
  cases ctx <;> (simp only []; split_ifs <;> exact ⟨rfl, rfl⟩)

/-- A request built from `http.NewRequest(method, url, body)` and finished by
`Do` has that method and that URL. -/
theorem built_method_url (validURL : String → Bool) (method url : String)
    (body : Option String) (params : List (String × String))
    (header : List (String × List String)) (ctx : Option String) (req : HttpRequest)
    (h : (match NewRequest validURL method url body with
          | Except.error e => Except.error e
          | Except.ok q => Except.ok (finish q params header ctx)) = Except.ok req) :
    req.Method = method ∧ req.URL = url := by
  unfold NewRequest at h
  by_cases hv : validURL url = true
  · simp only [hv, if_true] at h
    injection h with h
    rw [← h]
    exact finish_method_url _ params header ctx
  · simp only [hv] at h
    cases h

/-- Options that leave a field alone leave it as it was set before the loop. -/
theorem applyOptions_preserves {α β : Type} (field : α → β) (o : List (α → α))
    (h : ∀ f ∈ o, ∀ r, field (f r) = field r) :
    ∀ r : α, field (applyOptions r o) = field r := by
  induction o with
  | nil => intro r; rfl
  | cons f rest ih =>
    intro r
    have hrest : ∀ g ∈ rest, ∀ r, field (g r) = field r :=
      fun g hg => h g (List.mem_cons_of_mem f hg)
    show field (applyOptions (f r) rest) = field r
    rw [ih hrest (f r)]
    exact h f (List.mem_cons_self f rest) r

/-- C17, as stated, fails on `newGetRoleFunc`: called with the name "reader"
and the option `WithRole "writer"` it sends a GET on the path ending in
"/writer", not in "/" followed by its name argument. -/
theorem newGetRoleFunc_option_replaces_name :
    GetRoleRequest.request anyURL
        (applyOptions ({ Role := "reader" } : GetRoleRequest) [GetRole.WithRole "writer"])
        none =
      Except.ok { Method := "GET", URL := "/_plugins/_security/api/roles/writer",
                  Query := [], Header := [], Body := none, ctx := none } ∧
    newGetRoleFunc anyURL echo "reader" [GetRole.WithRole "writer"] =
      Except.ok { StatusCode := 200, Body := "GET /_plugins/_security/api/roles/writer",
                  Header := [] } ∧
    "/_plugins/_security/api/roles/writer" ≠
      "/_plugins/_security/api/roles" ++ "/" ++ "reader" := by
  refine ⟨rfl, rfl, by decide⟩

/-- C17, amended. The function from `newGetRolesMappingFunc` ignores its role
argument: for two role names and the same options and transport it gives the
same result, and the request it sends is a GET on
"/_plugins/_security/api/rolesmapping".  The functions from `newGetRoleFunc`,
`newPatchUserFunc` and `newCreateUserFunc` send a GET, PATCH and PUT on their
fixed path followed by "/" and the field `Role` or `Username` of the request
after the options were applied; the field starts as the name argument and is
the name argument whenever no option changes it. -/
theorem request_paths (validURL : String → Bool) (t : Transport)
    (role1 role2 name : String)
    (oM : List (GetRolesMappingRequest → GetRolesMappingRequest))
    (oR : List (GetRoleRequest → GetRoleRequest))
    (oP : List (PatchUserRequest → PatchUserRequest))
    (oC : List (CreateUserRequest → CreateUserRequest)) :
    (newGetRolesMappingFunc validURL t role1 oM =
        newGetRolesMappingFunc validURL t role2 oM ∧
      newGetRolesMappingFunc validURL t role1 oM =
        send (GetRolesMappingRequest.request validURL (applyOptions {} oM)
          (applyOptions ({} : GetRolesMappingRequest) oM).ctx) t ∧
      ∀ req, GetRolesMappingRequest.request validURL (applyOptions {} oM)
          (applyOptions ({} : GetRolesMappingRequest) oM).ctx = Except.ok req →
        req.Method = "GET" ∧ req.URL = "/_plugins/_security/api/rolesmapping") ∧
    (newGetRoleFunc validURL t name oR =
        send (GetRoleRequest.request validURL (applyOptions { Role := name } oR)
          (applyOptions ({ Role := name } : GetRoleRequest) oR).ctx) t ∧
      (∀ req, GetRoleRequest.request validURL (applyOptions { Role := name } oR)
          (applyOptions ({ Role := name } : GetRoleRequest) oR).ctx = Except.ok req →
        req.Method = "GET" ∧
        req.URL = "/_plugins/_security/api/roles" ++ "/" ++
          (applyOptions ({ Role := name } : GetRoleRequest) oR).Role) ∧
      ((∀ f ∈ oR, ∀ r, (f r).Role = r.Role) →
        (applyOptions ({ Role := name } : GetRoleRequest) oR).Role = name)) ∧
    (newPatchUserFunc validURL t name oP =
        send (PatchUserRequest.request validURL (applyOptions { Username := name } oP)
          (applyOptions ({ Username := name } : PatchUserRequest) oP).ctx) t ∧
      (∀ req, PatchUserRequest.request validURL (applyOptions { Username := name } oP)
          (applyOptions ({ Username := name } : PatchUserRequest) oP).ctx = Except.ok req →
        req.Method = "PATCH" ∧
        req.URL = "/_plugins/_security/api/internalusers" ++ "/" ++
          (applyOptions ({ Username := name } : PatchUserRequest) oP).Username) ∧
      ((∀ f ∈ oP, ∀ r, (f r).Username = r.Username) →
        (applyOptions ({ Username := name } : PatchUserRequest) oP).Username = name)) ∧
    (newCreateUserFunc validURL t name oC =
        send (CreateUserRequest.request validURL (applyOptions { Username := name } oC)
          (applyOptions ({ Username := name } : CreateUserRequest) oC).ctx) t ∧
      (∀ req, CreateUserRequest.request validURL (applyOptions { Username := name } oC)
          (applyOptions ({ Username := name } : CreateUserRequest) oC).ctx = Except.ok req →
        req.Method = "PUT" ∧
        req.URL = "/_plugins/_security/api/internalusers" ++ "/" ++
          (applyOptions ({ Username := name } : CreateUserRequest) oC).Username) ∧
      ((∀ f ∈ oC, ∀ r, (f r).Username = r.Username) →
        (applyOptions ({ Username := name } : CreateUserRequest) oC).Username = name)) := by
  refine ⟨⟨rfl, rfl, ?_⟩, ⟨rfl, ?_, ?_⟩, ⟨rfl, ?_, ?_⟩, ⟨rfl, ?_, ?_⟩⟩
  · intro req h
    exact built_method_url validURL _ _ _ _ _ _ req h
  · intro req h
    exact built_method_url validURL _ _ _ _ _ _ req h
  · intro h
    exact applyOptions_preserves (fun r : GetRoleRequest => r.Role) oR h _
  · intro req h
    exact built_method_url validURL _ _ _ _ _ _ req h
  · intro h
    exact applyOptions_preserves (fun r : PatchUserRequest => r.Username) oP h _
  · intro req h
    exact built_method_url validURL _ _ _ _ _ _ req h
  · intro h
    exact applyOptions_preserves (fun r : CreateUserRequest => r.Username) oC h _

/-- With the option `WithPretty` and the name "reader", and on two role names
for the roles mapping. -/
theorem request_paths_witness :
    newGetRolesMappingFunc anyURL echo "reader" [] =
      newGetRolesMappingFunc anyURL echo "writer" [] ∧
    (applyOptions ({ Role := "reader" } : GetRoleRequest) [GetRole.WithPretty]).Role =
      "reader" :=
  ⟨(request_paths anyURL echo "reader" "writer" "reader" [] [GetRole.WithPretty] [] []).1.1,
   (request_paths anyURL echo "reader" "writer" "reader" [] [GetRole.WithPretty] [] []).2.1.2.2
     (by
       intro f hf r
       have hf2 : f = GetRole.WithPretty := by simpa using hf
       rw [hf2]
       rfl)⟩

end Api
